import Mathlib

set_option maxRecDepth 1000000

/-
Verification development for the Equity_PyMC_Generative pipeline.

Shallow embedding of the two core modules the claims are about:
  * src/score_today.py        (the Scorer)
  * src/transform/signals.py  (the Signal Builder)

Modelling conventions:
  * A pandas cell that may be NaN is `Option _` with `none` playing the role
    of NaN.  NaN-skipping aggregations (mean/std with `skipna`, `min_periods`)
    are modelled by aggregating over the `some` values.
  * The scorer works in exact rational arithmetic (`ℚ`): every operation it
    performs is field arithmetic on decimal literals, so `ℚ` is a faithful
    exact model and keeps everything decidable.  The signal builder needs
    `Real.sqrt` (rolling/cross-sectional standard deviations) and `Real.log`,
    so it is embedded over `ℝ`.
  * JSON values loaded by `json.load` are modelled by `JVal`; `null` is
    `JVal.null`.  The posterior summary produced by `train_pymc.py` stores
    numbers, lists and string-keyed objects, which is what `JVal` covers.
  * The arviz `idata.posterior.coords` asset/feature orderings are passed to
    `score_today` as plain string lists; a missing coordinate is the empty
    list, exactly as in the source (`if "asset" in ... else []`).
-/

namespace EquityModel

/-- Decidable equality for `Except`, needed to evaluate scorer runs. -/
instance {ε α : Type} [DecidableEq ε] [DecidableEq α] : DecidableEq (Except ε α) := by
  intro x y
  cases x with
  | ok a =>
    cases y with
    | ok b =>
      exact if h : a = b then isTrue (by rw [h]) else isFalse (fun hc => h (Except.ok.inj hc))
    | error f => exact isFalse (fun hc => Except.noConfusion hc)
  | error e =>
    cases y with
    | ok b => exact isFalse (fun hc => Except.noConfusion hc)
    | error f =>
      exact if h : e = f then isTrue (by rw [h]) else isFalse (fun hc => h (Except.error.inj hc))

/-! ### JSON values and posterior-summary field resolution (score_today.py) -/

/-- JSON value as produced by `json.load` on the posterior-summary file. -/
inductive JVal where
  | num (q : ℚ)
  | arr (l : List JVal)
  | obj (l : List (String × JVal))
  | null

/-- True exactly on JSON `null` (Python `None`). -/
def JVal.isNull : JVal → Bool
  | JVal.null => true
  | _ => false

/-- Exceptions that `score_today` can raise while resolving the posterior
summary: `KeyError` for a missing field, `ValueError` for a positional list
whose length mismatches the declared ordering, `TypeError` for a value that is
neither a mapping nor a list, and the `float(...)` conversion failure for a
non-numeric entry inside a mapping or list. -/
inductive ScErr where
  | missingKey (name : String)
  | lengthMismatch (name : String)
  | unsupportedType (name : String)
  | convError (name : String)
  deriving DecidableEq, Repr

/-- Association-list lookup, mirroring Python `k in post` / `post[k]`. -/
def jlookup (post : List (String × JVal)) (k : String) : Option JVal :=
  (post.find? (fun e => e.1 == k)).map (fun e => e.2)

/-- Python `post.get(k1, post.get(k2))` followed by the `is None` test:
a key that is present with JSON `null` yields `None` just like an absent key,
and a present `k1` (even `null`-valued) shadows `k2`. -/
def pyGet2 (post : List (String × JVal)) (k1 k2 : String) : Option JVal :=
  match jlookup post k1 with
  | some v => if v.isNull then none else some v
  | none =>
    match jlookup post k2 with
    | some v => if v.isNull then none else some v
    | none => none

/-- Python `float(v)` on a JSON scalar: succeeds exactly on numbers here. -/
def jToFloat : JVal → Option ℚ
  | JVal.num q => some q
  | _ => none

/-- Converts the entries of a name-keyed JSON object to floats, failing like
the Python comprehension does on the first non-numeric value. -/
def floatPairs (nm : String) : List (String × JVal) → Except ScErr (List (String × ℚ))
  | [] => Except.ok []
  | e :: rest =>
    match jToFloat e.2 with
    | some q => (floatPairs nm rest).map (fun l => (e.1, q) :: l)
    | none => Except.error (ScErr.convError nm)

/-- Converts a positional JSON list zipped with its declared key ordering. -/
def floatZip (nm : String) : List (String × JVal) → Except ScErr (List (String × ℚ))
  | [] => Except.ok []
  | e :: rest =>
    match jToFloat e.2 with
    | some q => (floatZip nm rest).map (fun l => (e.1, q) :: l)
    | none => Except.error (ScErr.convError nm)

/-- Embedding of `_as_float_map_from_json`: accepts a name-keyed mapping or a
positional list aligned with `keys`; a list of the wrong length is a
`ValueError`, any other shape a `TypeError`. -/
def as_float_map_from_json (value : JVal) (keys : List String) (nm : String) :
    Except ScErr (List (String × ℚ)) :=
  match value with
  | JVal.obj es => floatPairs nm es
  | JVal.arr es =>
    if es.length = keys.length then floatZip nm (keys.zip es)
    else Except.error (ScErr.lengthMismatch nm)
  | _ => Except.error (ScErr.unsupportedType nm)

/-- Alias keys `_get_sigma` probes, in order. -/
def sigmaAliases : List String := ["sigma_mean", "sigma", "sigma_mean_"]

/-- One probing step of `_get_sigma`: `k in post and post[k] is not None`,
then `float(...)` guarded by `try/except`, accepting only positive values. -/
def get_sigma_aux (post : List (String × JVal)) : List String → ℚ
  | [] => 1 / 1000000
  | k :: rest =>
    match jlookup post k with
    | some v =>
      if v.isNull then get_sigma_aux post rest
      else
        match jToFloat v with
        | some s => if 0 < s then s else get_sigma_aux post rest
        | none => get_sigma_aux post rest
    | none => get_sigma_aux post rest

/-- Embedding of `_get_sigma`. -/
def get_sigma (post : List (String × JVal)) : ℚ :=
  get_sigma_aux post sigmaAliases

/-- Spec-side restatement of sigma resolution over an alias list: the first
alias whose value is a strictly positive number, with fallback 1e-6. -/
def sigma_specAux (post : List (String × JVal)) (l : List String) : ℚ :=
  ((l.filterMap
      (fun k => (jlookup post k).bind
        (fun v => (jToFloat v).bind (fun s => if 0 < s then some s else none)))).head?).getD
    (1 / 1000000)

/-- Spec-side restatement of sigma resolution: the first alias whose value is
a strictly positive number, with fallback 1e-6.  Used to check `get_sigma`
against the specification sentence. -/
def sigma_spec (post : List (String × JVal)) : ℚ :=
  sigma_specAux post sigmaAliases

/-! ### The scorer (score_today.py) -/

/-- Feature column names, in the order `FEATURE_COLS` fixes. -/
def FEATURE_COLS : List String :=
  ["beta_mkt", "log_mktcap", "value_z", "mom_12_1", "vol_20d",
   "illiq_amihud", "quality_z", "macro_sens", "credit_sens", "news_sent_7d"]

/-- One row of the model frame read from `model_frame.parquet`; `dt` is the
stringified date and `cell` the (possibly NaN) feature columns. -/
structure FRow where
  ticker : String
  dt : String
  cell : String → Option ℚ

/-- The model frame: its set of columns plus its rows. -/
structure Frame where
  cols : List String
  rows : List FRow

/-- Cell access after the `for c in FEATURE_COLS: if c not in latest.columns:
latest[c] = 0.0` step: an absent column reads as 0. -/
def cellOf (fr : Frame) (r : FRow) (c : String) : Option ℚ :=
  if fr.cols.contains c then r.cell c else some 0

/-- Stable insertion of `x` into a list ordered by `le`. -/
def insertLE {α : Type} (le : α → α → Bool) (x : α) : List α → List α
  | [] => [x]
  | y :: ys => if le x y then x :: y :: ys else y :: insertLE le x ys

/-- Stable insertion sort by the boolean relation `le`. -/
def sortLE {α : Type} (le : α → α → Bool) : List α → List α
  | [] => []
  | x :: xs => insertLE le x (sortLE le xs)

/-- Lexicographic strictly-less on character lists by Unicode code point,
the order Python uses to compare the strings in `sort_values`. -/
def charsLT : List Char → List Char → Bool
  | [], [] => false
  | [], _ :: _ => true
  | _ :: _, [] => false
  | a :: as, b :: bs =>
    if a.toNat < b.toNat then true
    else if b.toNat < a.toNat then false
    else charsLT as bs

/-- Strict string comparison by code points. -/
def strLT (a b : String) : Bool := charsLT a.data b.data

/-- Comparator for `df.sort_values(["ticker", "dt"])` (both are strings). -/
def frowLE (a b : FRow) : Bool :=
  strLT a.ticker b.ticker ||
    (a.ticker == b.ticker && !(strLT b.dt a.dt))

/-- Keep the chronologically last row per ticker on a (ticker, dt)-sorted
list, as `groupby("ticker").tail(1)` does. -/
def keepLast : List FRow → List FRow
  | [] => []
  | [r] => [r]
  | r :: s :: rest =>
    if r.ticker = s.ticker then keepLast (s :: rest)
    else r :: keepLast (s :: rest)

/-- Latest feature row per ticker, in ascending ticker order. -/
def latest_rows (fr : Frame) : List FRow :=
  keepLast (sortLE frowLE fr.rows)

/-- Dictionary `get` with default, mirroring `beta_map.get(c, 0.0)`. -/
def lookupD (m : List (String × ℚ)) (k : String) (d : ℚ) : ℚ :=
  (((m.find? (fun e => e.1 == k)).map (fun e => e.2))).getD d

/-- One output row of the scorer (the columns the claims inspect; `p_pos` is
derived by `scorePPos` below since it is the only real-valued column). -/
structure SRow where
  ticker : String
  dt : String
  mu : Option ℚ
  sigma : ℚ
  z : Option ℚ
  label : String
  deriving DecidableEq, Repr

/-- Label thresholds from `score_today.label`: NaN compares false on both
sides, hence maps to "neutral". -/
def labelOf (z : Option ℚ) : String :=
  match z with
  | some q => if 1 / 2 < q then "undervalued" else if q < -(1 / 2) then "overvalued" else "neutral"
  | none => "neutral"

/-- Builds one scorer output row: `mu = alpha + sum(x_c * beta_c)` over
`FEATURE_COLS` (NaN-propagating), `z = mu / (sigma + 1e-12)`. -/
def mk_srow (fr : Frame) (beta_map alpha_map : List (String × ℚ)) (sigma : ℚ)
    (r : FRow) : SRow :=
  let mu : Option ℚ :=
    FEATURE_COLS.foldl
      (fun acc c => acc.bind (fun s => (cellOf fr r c).map (fun x => s + x * lookupD beta_map c 0)))
      (some (lookupD alpha_map r.ticker 0))
  let z : Option ℚ := mu.map (fun m => m / (sigma + 1 / 1000000000000))
  { ticker := r.ticker, dt := r.dt, mu := mu, sigma := sigma, z := z, label := labelOf z }

/-- Comparator for `sort_values("z_score", ascending=False)`: descending by
z-score with NaN sorted last. -/
def srowGE (a b : SRow) : Bool :=
  match a.z, b.z with
  | some x, some y => decide (y ≤ x)
  | some _, none => true
  | none, some _ => false
  | none, none => true

/-- Pure scoring stage once the posterior maps and sigma are resolved:
asset-index filtering, mu/z/label computation, and the descending sort. -/
def score_rows (fr : Frame) (beta_map alpha_map : List (String × ℚ)) (sigma : ℚ)
    (assets : List String) : List SRow :=
  let latest := latest_rows fr
  let latest2 := if assets.isEmpty then latest
    else latest.filter (fun r => assets.contains r.ticker)
  sortLE srowGE (latest2.map (mk_srow fr beta_map alpha_map sigma))

/-- Declared loading ordering: idata feature coordinates if present, else
`FEATURE_COLS` (line 87 of score_today.py). -/
def betaKeysOf (features : List String) : List String :=
  if features.isEmpty then FEATURE_COLS else features

/-- Declared intercept ordering: idata asset coordinates if present, else the
sorted tickers of the latest frame (line 96 of score_today.py; `latest_rows`
is already one row per ticker in ascending ticker order). -/
def alphaKeysOf (fr : Frame) (assets : List String) : List String :=
  if assets.isEmpty then (latest_rows fr).map (fun r => r.ticker) else assets

/-- Embedding of `score_today`: `assets` / `features` are the idata coordinate
orderings (empty list when the coordinate is absent).  Returns the written
score rows, or the exception the Python code raises. -/
def score_today (fr : Frame) (post : List (String × JVal))
    (assets features : List String) : Except ScErr (List SRow) :=
  match pyGet2 post "beta_mean" "beta" with
  | none => Except.error (ScErr.missingKey ("beta_mean/beta"))
  | some betaVal =>
    match as_float_map_from_json betaVal (betaKeysOf features) ("beta") with
    | Except.error e => Except.error e
    | Except.ok beta_map =>
      match pyGet2 post "alpha_mean" "alpha" with
      | none => Except.error (ScErr.missingKey ("alpha_mean/alpha"))
      | some alphaVal =>
        match as_float_map_from_json alphaVal (alphaKeysOf fr assets) ("alpha") with
        | Except.error e => Except.error e
        | Except.ok alpha_map =>
          Except.ok (score_rows fr beta_map alpha_map (get_sigma post) assets)

end EquityModel

namespace EquityModel

/-! ### The Gaussian CDF used for `p_pos` (scipy.stats.norm.cdf) -/

open MeasureTheory ProbabilityTheory in
/-- Standard normal CDF, the meaning of `scipy.stats.norm.cdf`. -/
noncomputable def normCdf (x : ℝ) : ℝ :=
  ∫ t in Set.Iic x, gaussianPDFReal 0 1 t

open MeasureTheory ProbabilityTheory in
/-- The standard normal CDF at zero is one half. -/
theorem normCdf_zero : normCdf 0 = 1 / 2 := by
  have hint : Integrable (gaussianPDFReal 0 1) := integrable_gaussianPDFReal 0 1
  have heven : ∀ t : ℝ, gaussianPDFReal 0 1 (-t) = gaussianPDFReal 0 1 t := by
    intro t
    simp [gaussianPDFReal]
  have h1 : normCdf 0 = ∫ t in Set.Ioi (0:ℝ), gaussianPDFReal 0 1 t := by
    unfold normCdf
    have h : (∫ t in Set.Iic (0:ℝ), gaussianPDFReal 0 1 t)
        = ∫ t in Set.Iic (0:ℝ), gaussianPDFReal 0 1 (-t) := by
      refine setIntegral_congr_fun measurableSet_Iic (fun t _ => ?_)
      rw [heven]
    rw [h, integral_comp_neg_Iic, neg_zero]
  have h3 : normCdf 0 + ∫ t in Set.Ioi (0:ℝ), gaussianPDFReal 0 1 t
      = ∫ t, gaussianPDFReal 0 1 t := by
    unfold normCdf
    rw [← Set.compl_Iic]
    exact integral_add_compl measurableSet_Iic hint
  have h4 : (∫ t, gaussianPDFReal 0 1 t) = 1 :=
    integral_gaussianPDFReal_eq_one 0 one_ne_zero
  linarith

/-- The `p_pos` column of a score row: `norm.cdf(mu_1d / (sigma + 1e-12))`,
NaN-propagating like the pandas column it models. -/
noncomputable def scorePPos (r : SRow) : Option ℝ :=
  r.mu.map (fun m => normCdf ((m : ℝ) / ((r.sigma : ℝ) + 1 / 1000000000000)))

/-! ### Claim C9: sigma resolution -/

/-- The probing loop of `_get_sigma` always yields a positive value. -/
theorem get_sigma_aux_pos (post : List (String × JVal)) :
    ∀ l : List String, 0 < get_sigma_aux post l := by
  intro l
  induction l with
  | nil => norm_num [get_sigma_aux]
  | cons k rest ih =>
    unfold get_sigma_aux
    cases hjk : jlookup post k with
    | none => exact ih
    | some v =>
      simp only []
      split
      · exact ih
      · cases hf : jToFloat v with
        | none => exact ih
        | some s =>
          simp only []
          split
          · assumption
          · exact ih

/-- The probing loop of `_get_sigma` computes the first-positive-alias
semantics described by the spec. -/
theorem get_sigma_aux_spec (post : List (String × JVal)) :
    ∀ l : List String, get_sigma_aux post l = sigma_specAux post l := by
  intro l
  induction l with
  | nil => rfl
  | cons k rest ih =>
    unfold get_sigma_aux sigma_specAux
    cases hjk : jlookup post k with
    | none => simpa [hjk, sigma_specAux] using ih
    | some v =>
      cases v with
      | num q =>
        simp only [hjk, JVal.isNull, jToFloat, if_false, Bool.false_eq_true, List.filterMap_cons,
          Option.bind_some]
        by_cases hq : 0 < q
        · simp [hq]
        · simpa [hq, sigma_specAux] using ih
      | arr l2 => simpa [hjk, JVal.isNull, jToFloat, sigma_specAux] using ih
      | obj l2 => simpa [hjk, JVal.isNull, jToFloat, sigma_specAux] using ih
      | null => simpa [hjk, JVal.isNull, jToFloat, sigma_specAux] using ih

/-- Claim C9 (confirmed): `_get_sigma` resolves sigma by probing the aliases
`sigma_mean`, `sigma`, `sigma_mean_` in order, returning the first value that
parses as a strictly positive number; otherwise it returns the fixed epsilon
1e-6; it is a total function (never raises) and its result is always strictly
positive. -/
theorem c9_sigma_resolution (post : List (String × JVal)) :
    0 < get_sigma post ∧ get_sigma post = sigma_spec post :=
  ⟨get_sigma_aux_pos post sigmaAliases,
   get_sigma_aux_spec post sigmaAliases⟩

end EquityModel

namespace EquityModel

/-! ### Helper lemmas about the scorer -/

/-- A dictionary all of whose values are zero always reads zero. -/
theorem lookupD_eq_zero (m : List (String × ℚ)) (hm : ∀ p ∈ m, p.2 = 0) (k : String) :
    lookupD m k 0 = 0 := by
  unfold lookupD
  cases hf : m.find? (fun e => e.1 == k) with
  | none => rfl
  | some p =>
    have hp := List.mem_of_find?_eq_some hf
    simp [hm p hp]

/-- With an all-zero loading map, the mu fold leaves its accumulator
unchanged as long as every touched cell is present. -/
theorem mu_fold_zero (fr : Frame) (fr0 : FRow) (bm : List (String × ℚ))
    (hb : ∀ p ∈ bm, p.2 = 0) :
    ∀ cols : List String, (∀ c ∈ cols, (cellOf fr fr0 c).isSome) → ∀ s : ℚ,
      cols.foldl
        (fun acc c => acc.bind (fun t => (cellOf fr fr0 c).map (fun x => t + x * lookupD bm c 0)))
        (some s) = some s := by
  intro cols
  induction cols with
  | nil => intro _ s; rfl
  | cons c rest ih =>
    intro hall s
    obtain ⟨x, hx⟩ := Option.isSome_iff_exists.mp (hall c (List.mem_cons_self c rest))
    have hstep : (some s).bind
        (fun t => (cellOf fr fr0 c).map (fun x => t + x * lookupD bm c 0)) = some s := by
      rw [hx]
      simp [lookupD_eq_zero bm hb c]
    simp only [List.foldl_cons, hstep]
    exact ih (fun d hd => hall d (List.mem_cons_of_mem c hd)) s

/-! ### Claim C4: zero-model round trip -/

/-- Claim C4 (corrected): with an all-zero loading map and all-zero intercept
map, every scored row whose feature cells are all present gets
`mu_1d = 0`, `z_score = 0`, `p_pos = 1/2` and label `"neutral"`, for any
frame and any resolved sigma.  (Rows with a missing feature cell instead get
missing `mu`/`z`/`p_pos`, see the counterexample.) -/
theorem c4_zero_posterior_rows (fr : Frame) (bm am : List (String × ℚ)) (sq : ℚ)
    (fr0 : FRow) (hb : ∀ p ∈ bm, p.2 = 0) (ha : ∀ p ∈ am, p.2 = 0)
    (hcells : ∀ c ∈ FEATURE_COLS, (cellOf fr fr0 c).isSome) :
    (mk_srow fr bm am sq fr0).mu = some 0 ∧
    (mk_srow fr bm am sq fr0).z = some 0 ∧
    scorePPos (mk_srow fr bm am sq fr0) = some (1 / 2) ∧
    (mk_srow fr bm am sq fr0).label = "neutral" := by
  have hmu : (mk_srow fr bm am sq fr0).mu = some 0 := by
    simp only [mk_srow]
    rw [lookupD_eq_zero am ha fr0.ticker]
    exact mu_fold_zero fr fr0 bm hb FEATURE_COLS hcells 0
  have hz : (mk_srow fr bm am sq fr0).z = some 0 := by
    have : (mk_srow fr bm am sq fr0).z
        = (mk_srow fr bm am sq fr0).mu.map (fun m => m / (sq + 1 / 1000000000000)) := rfl
    rw [this, hmu]
    simp
  have hsigma : (mk_srow fr bm am sq fr0).sigma = sq := rfl
  refine ⟨hmu, hz, ?_, ?_⟩
  · unfold scorePPos
    rw [hmu, hsigma]
    simp [normCdf_zero]
  · have : (mk_srow fr bm am sq fr0).label = labelOf (mk_srow fr bm am sq fr0).z := rfl
    rw [this, hz]
    norm_num [labelOf]

/-- Concrete zero posterior over the declared feature ordering, with a single
asset `"AAA"`. -/
def zeroPostA : List (String × JVal) :=
  [("beta_mean", JVal.obj (FEATURE_COLS.map (fun c => (c, JVal.num 0)))),
   ("alpha_mean", JVal.obj [("AAA", JVal.num 0)]),
   ("sigma_mean", JVal.num 1)]

/-- Frame whose single row has a missing (NaN) `beta_mkt` cell: this is what
a single-ticker date of the signal builder's panel looks like. -/
def c4BadFrame : Frame :=
  { cols := FEATURE_COLS,
    rows := [
      { ticker := "AAA", dt := "2024-01-02",
        cell := fun c => if c == "beta_mkt" then none else some 0 } ] }

/-- Claim C4 counterexample: with the all-zero posterior, a scored row whose
`beta_mkt` feature is NaN has missing `mu_1d` and `z_score` (the NaN
propagates through `float(r[c]) * beta` exactly as in pandas), not
`mu_1d = 0` and `z_score = 0` as the claim asserts for every row. -/
theorem c4_counterexample :
    (score_today c4BadFrame zeroPostA ["AAA"] []).map
        (fun l => l.map (fun r => (r.mu, r.z, r.label)))
      = Except.ok [((none : Option ℚ), (none : Option ℚ), "neutral")] ∧
    (none : Option ℚ) ≠ some 0 := by
  constructor
  · with_unfolding_all rfl
  · simp

/-- Witness for `c4_zero_posterior_rows` at a concrete frame, row, and maps. -/
def c4GoodRow : FRow :=
  { ticker := "AAA", dt := "2024-01-02", cell := fun _ => some 3 }

/-- Concrete all-zero maps for the witness. -/
def c4ZeroBeta : List (String × ℚ) := FEATURE_COLS.map (fun c => (c, 0))

/-- Concrete frame for the witness. -/
def c4GoodFrame : Frame := { cols := FEATURE_COLS, rows := [c4GoodRow] }

/-- Witness: `c4_zero_posterior_rows` instantiated at a concrete frame with
all features present, all-zero maps, and sigma 7. -/
theorem c4_zero_posterior_rows_witness :
    (mk_srow c4GoodFrame c4ZeroBeta [("AAA", 0)] 7 c4GoodRow).mu = some 0 ∧
    (mk_srow c4GoodFrame c4ZeroBeta [("AAA", 0)] 7 c4GoodRow).z = some 0 ∧
    scorePPos (mk_srow c4GoodFrame c4ZeroBeta [("AAA", 0)] 7 c4GoodRow) = some (1 / 2) ∧
    (mk_srow c4GoodFrame c4ZeroBeta [("AAA", 0)] 7 c4GoodRow).label = "neutral" :=
  c4_zero_posterior_rows c4GoodFrame c4ZeroBeta [("AAA", 0)] 7 c4GoodRow
    (by with_unfolding_all decide)
    (by with_unfolding_all decide)
    (by with_unfolding_all decide)

end EquityModel

namespace EquityModel

/-! ### Claim C5: two-ticker end-to-end run -/

/-- Frame for the end-to-end scenario: one date, two tickers, standardized
factor `beta_mkt` (the `f1` of the scenario) equal to 2 for `"AAA"` and
-2 for `"BBB"`, all other factors 0. -/
def c5Frame : Frame :=
  { cols := FEATURE_COLS,
    rows := [
      { ticker := "AAA", dt := "2024-01-02",
        cell := fun c => if c == "beta_mkt" then some 2 else some 0 },
      { ticker := "BBB", dt := "2024-01-02",
        cell := fun c => if c == "beta_mkt" then some (-2) else some 0 } ] }

/-- Posterior for the end-to-end scenario: loading 1.0 on `beta_mkt`, 0 on
the other nine factors, zero intercepts, `sigma = 1.0`. -/
def c5Post : List (String × JVal) :=
  [("beta_mean",
     JVal.obj (FEATURE_COLS.map (fun c => (c, JVal.num (if c == "beta_mkt" then 1 else 0))))),
   ("alpha_mean", JVal.obj [("AAA", JVal.num 0), ("BBB", JVal.num 0)]),
   ("sigma_mean", JVal.num 1)]

/-- Claim C5 counterexample: in the end-to-end scenario the code computes
`z = mu / (sigma + 1e-12)`, so ticker `"AAA"` gets
`z = 2 / (1 + 1e-12) = 2000000000000/1000000000001`, which is not the exact
`2.0` the claim states (and `"BBB"` likewise is not exactly `-2.0`). -/
theorem c5_counterexample :
    (score_today c5Frame c5Post ["AAA", "BBB"] []).map
        (fun l => l.map (fun r => (r.ticker, r.z)))
      = Except.ok [("AAA", some (2000000000000 / 1000000000001)),
                   ("BBB", some (-(2000000000000 / 1000000000001)))] ∧
    ((2000000000000 : ℚ) / 1000000000001) ≠ 2 := by
  constructor
  · with_unfolding_all rfl
  · norm_num

/-- Claim C5 (corrected): the end-to-end scenario produces exactly two rows,
ordered `"AAA"` before `"BBB"` (descending z-score), with
`z = ± 2/(1 + 1e-12)` (within `2e-12` of `±2.0`) and labels
`"undervalued"` / `"overvalued"`. -/
theorem c5_end_to_end_exact :
    (score_today c5Frame c5Post ["AAA", "BBB"] []).map
        (fun l => l.map (fun r => (r.ticker, r.z, r.label)))
      = Except.ok [("AAA", some (2000000000000 / 1000000000001), "undervalued"),
                   ("BBB", some (-(2000000000000 / 1000000000001)), "overvalued")] ∧
    |(2000000000000 : ℚ) / 1000000000001 - 2| < 2 / 1000000000000 := by
  constructor
  · with_unfolding_all rfl
  · rw [abs_sub_lt_iff]
    norm_num

/-! ### Claim C3: empty cross-section after asset filtering -/

/-- Frame containing only a `"TSLA"` row. -/
def c3Frame : Frame :=
  { cols := FEATURE_COLS,
    rows := [ { ticker := "TSLA", dt := "2024-01-02", cell := fun _ => some 0 } ] }

/-- Well-formed posterior whose asset index is `{"AAPL", "MSFT"}`. -/
def c3Post : List (String × JVal) :=
  [("beta_mean", JVal.obj (FEATURE_COLS.map (fun c => (c, JVal.num 0)))),
   ("alpha_mean", JVal.obj [("AAPL", JVal.num 0), ("MSFT", JVal.num 0)]),
   ("sigma_mean", JVal.num 1)]

/-- Claim C3 counterexample: scoring a frame containing only `"TSLA"` against
a posterior asset index `{"AAPL", "MSFT"}` leaves zero tickers after
filtering, and `score_today` completes normally with an empty output instead
of raising an error. -/
theorem c3_counterexample :
    score_today c3Frame c3Post ["AAPL", "MSFT"] [] = Except.ok [] := by
  with_unfolding_all rfl

/-- Claim C3 (corrected): whenever the posterior summary itself parses, an
empty cross-section after asset-index filtering is not an error: the scorer
completes normally and emits zero rows. -/
theorem c3_empty_filter_ok_empty (fr : Frame) (post : List (String × JVal))
    (assets features : List String) (a0 : String) (as0 : List String)
    (hassets : assets = a0 :: as0)
    (hfilter : (latest_rows fr).filter (fun r => assets.contains r.ticker) = [])
    (bv : JVal) (hbv : pyGet2 post "beta_mean" "beta" = some bv)
    (bm : List (String × ℚ))
    (hbm : as_float_map_from_json bv (betaKeysOf features) ("beta") = Except.ok bm)
    (av : JVal) (hav : pyGet2 post "alpha_mean" "alpha" = some av)
    (am : List (String × ℚ))
    (ham : as_float_map_from_json av assets ("alpha") = Except.ok am) :
    score_today fr post assets features = Except.ok [] := by
  subst hassets
  have hkeys : alphaKeysOf fr (a0 :: as0) = a0 :: as0 := rfl
  unfold score_today
  rw [hbv]
  simp only [hbm, hav, hkeys, ham]
  unfold score_rows
  have hne : (a0 :: as0).isEmpty = false := rfl
  rw [hne]
  simp only [Bool.false_eq_true, if_false, hfilter, List.map_nil]
  rfl

/-- Witness for `c3_empty_filter_ok_empty` at the concrete TSLA scenario. -/
theorem c3_empty_filter_ok_empty_witness :
    score_today c3Frame c3Post ["AAPL", "MSFT"] [] = Except.ok [] :=
  c3_empty_filter_ok_empty c3Frame c3Post ["AAPL", "MSFT"] [] "AAPL" ["MSFT"]
    rfl
    (by with_unfolding_all rfl)
    (JVal.obj (FEATURE_COLS.map (fun c => (c, JVal.num 0))))
    (by with_unfolding_all rfl)
    (FEATURE_COLS.map (fun c => (c, 0)))
    (by with_unfolding_all rfl)
    (JVal.obj [("AAPL", JVal.num 0), ("MSFT", JVal.num 0)])
    (by with_unfolding_all rfl)
    [("AAPL", 0), ("MSFT", 0)]
    (by with_unfolding_all rfl)

end EquityModel

namespace EquityModel

/-! ### Claim C6: structural-error characterization -/

/-- A posterior field value that makes `_as_float_map_from_json` raise for
the given declared ordering: a mapping or list containing a non-numeric
entry, a list of the wrong length, or a value of unsupported type. -/
def badVal (v : JVal) (keys : List String) : Bool :=
  match v with
  | JVal.obj es => es.any (fun p => (jToFloat p.2).isNone)
  | JVal.arr es => decide (es.length ≠ keys.length) || es.any (fun x => (jToFloat x).isNone)
  | _ => true

/-- A posterior summary on which the scorer raises: a loading or intercept
field that is absent (or JSON null), or whose value is `badVal` for its
declared ordering. -/
def postMalformed (post : List (String × JVal)) (betaKeys alphaKeys : List String) : Bool :=
  (match pyGet2 post "beta_mean" "beta" with
   | none => true
   | some v => badVal v betaKeys) ||
  (match pyGet2 post "alpha_mean" "alpha" with
   | none => true
   | some v => badVal v alphaKeys)

/-- Mapping-entry conversion fails exactly when some entry is non-numeric. -/
theorem floatPairs_error_iff (nm : String) (es : List (String × JVal)) :
    (∃ e, floatPairs nm es = Except.error e) ↔
      es.any (fun p => (jToFloat p.2).isNone) = true := by
  induction es with
  | nil => simp [floatPairs]
  | cons p rest ih =>
    cases hf : jToFloat p.2 with
    | some q =>
      simp only [floatPairs, hf, List.any_cons, Option.isNone_some, Bool.false_or]
      constructor
      · rintro ⟨e, he⟩
        cases hr : floatPairs nm rest with
        | ok l =>
          rw [hr] at he
          exact absurd he (by simp [Except.map])
        | error e2 => exact ih.mp ⟨e2, hr⟩
      · intro h
        obtain ⟨e, he⟩ := ih.mpr h
        exact ⟨e, by rw [he]; rfl⟩
    | none => simp [floatPairs, hf]

/-- List-entry conversion (after the length check) fails exactly when some
element is non-numeric. -/
theorem floatZip_error_iff (nm : String) :
    ∀ (keys : List String) (es : List JVal), es.length = keys.length →
      ((∃ e, floatZip nm (List.zipWith Prod.mk keys es) = Except.error e) ↔
        es.any (fun v => (jToFloat v).isNone) = true) := by
  intro keys
  induction keys with
  | nil =>
    intro es h
    cases es with
    | nil => simp [floatZip]
    | cons v vs => exact absurd h (by simp)
  | cons k ks ih =>
    intro es h
    cases es with
    | nil => exact absurd h (by simp)
    | cons v vs =>
      have hlen : vs.length = ks.length := by simpa using h
      cases hf : jToFloat v with
      | some q =>
        simp only [List.zipWith_cons_cons, floatZip, hf, List.any_cons, Option.isNone_some,
          Bool.false_or]
        constructor
        · rintro ⟨e, he⟩
          cases hr : floatZip nm (List.zipWith Prod.mk ks vs) with
          | ok l =>
            rw [hr] at he
            exact absurd he (by simp [Except.map])
          | error e2 => exact (ih vs hlen).mp ⟨e2, hr⟩
        · intro hh
          obtain ⟨e, he⟩ := (ih vs hlen).mpr hh
          exact ⟨e, by rw [he]; rfl⟩
      | none => simp [List.zipWith_cons_cons, floatZip, hf]

/-- `_as_float_map_from_json` fails exactly on `badVal` values. -/
theorem as_float_map_error_iff (v : JVal) (keys : List String) (nm : String) :
    (∃ e, as_float_map_from_json v keys nm = Except.error e) ↔ badVal v keys = true := by
  cases v with
  | num q => simp [as_float_map_from_json, badVal]
  | null => simp [as_float_map_from_json, badVal]
  | obj es => simpa [as_float_map_from_json, badVal] using floatPairs_error_iff nm es
  | arr es =>
    by_cases hl : es.length = keys.length
    · simp only [as_float_map_from_json, List.zip, badVal, hl, if_true, decide_not]
      rw [floatZip_error_iff nm keys es hl]
      simp [hl]
    · simp [as_float_map_from_json, badVal, hl]

/-- Claim C6 (corrected): the scorer raises a fatal error exactly when the
posterior summary is missing (or null at) both loading keys or both
intercept keys, or a loading/intercept value is `badVal` for its declared
ordering — i.e. a positional list of mismatched length, a mapping or list
with a non-numeric entry, or a value that is neither a mapping nor a list.
A name-keyed mapping with numeric values never raises. -/
theorem c6_structural_error_characterization (fr : Frame) (post : List (String × JVal))
    (assets features : List String) :
    (∃ e, score_today fr post assets features = Except.error e) ↔
      postMalformed post (betaKeysOf features) (alphaKeysOf fr assets) = true := by
  unfold score_today postMalformed
  cases hb : pyGet2 post "beta_mean" "beta" with
  | none => simp
  | some bv =>
    cases hfb : as_float_map_from_json bv (betaKeysOf features) ("beta") with
    | error e =>
      have hbad : badVal bv (betaKeysOf features) = true :=
        (as_float_map_error_iff bv _ ("beta")).mp ⟨e, hfb⟩
      simp [hfb, hbad]
    | ok bm =>
      have hnb : badVal bv (betaKeysOf features) = false := by
        cases hc : badVal bv (betaKeysOf features) with
        | false => rfl
        | true =>
          obtain ⟨e, he⟩ := (as_float_map_error_iff bv _ ("beta")).mpr hc
          rw [he] at hfb
          exact absurd hfb (by simp)
      cases ha : pyGet2 post "alpha_mean" "alpha" with
      | none => simp [hfb, hnb]
      | some av =>
        cases hfa : as_float_map_from_json av (alphaKeysOf fr assets) ("alpha") with
        | error e2 =>
          have hbad2 : badVal av (alphaKeysOf fr assets) = true :=
            (as_float_map_error_iff av _ ("alpha")).mp ⟨e2, hfa⟩
          simp [hfb, hfa, hnb, hbad2]
        | ok am =>
          have hna : badVal av (alphaKeysOf fr assets) = false := by
            cases hc : badVal av (alphaKeysOf fr assets) with
            | false => rfl
            | true =>
              obtain ⟨e2, he2⟩ := (as_float_map_error_iff av _ ("alpha")).mpr hc
              rw [he2] at hfa
              exact absurd hfa (by simp)
          simp [hfb, hfa, hnb, hna]

/-- Frame for the C6 counterexample. -/
def c6Frame : Frame :=
  { cols := FEATURE_COLS,
    rows := [ { ticker := "AAA", dt := "2024-01-02", cell := fun _ => some 0 } ] }

/-- Posterior whose `beta_mean` is present and numeric — neither missing nor
a positional list, so no length mismatch is possible. -/
def c6Post : List (String × JVal) :=
  [("beta_mean", JVal.num 1),
   ("alpha_mean", JVal.obj [("AAA", JVal.num 0)]),
   ("sigma_mean", JVal.num 1)]

/-- Claim C6 counterexample: `beta_mean` is present (a plain number, so there
is no missing key and no list-length mismatch), yet the scorer raises a fatal
`TypeError`-style structural error — an error mode outside the claim's
"exactly when" enumeration. -/
theorem c6_counterexample :
    pyGet2 c6Post "beta_mean" "beta" = some (JVal.num 1) ∧
    score_today c6Frame c6Post ["AAA"] [] = Except.error (ScErr.unsupportedType ("beta")) := by
  constructor
  · with_unfolding_all rfl
  · with_unfolding_all rfl

end EquityModel

namespace EquityModel

/-! ### The signal builder (transform/signals.py)

The price panel is represented per ticker (the sorted, grouped view that
`sort_values(["ticker","dt"]) / groupby("ticker")` gives): a `TickerFrame`
holds the date-ascending series of one ticker.  Dates are opaque keys with
order, modelled as `ℕ`.  Rolling windows in pandas are positional with
`min_periods` equal to the window, and a NaN inside the window leaves fewer
valid observations than `min_periods`, so a window result is present exactly
when the whole window is.  All aggregations use pandas defaults
(`ddof = 1`, skipna).  Cell values are `Option ℝ` (`none` = NaN). -/

/-- Mean of a list of reals (`[].sum / 0 = 0` never arises: callers guard). -/
noncomputable def lmean (l : List ℝ) : ℝ := l.sum / l.length

/-- Sample variance with `ddof = 1`, the pandas default. -/
noncomputable def sampleVar (l : List ℝ) : ℝ :=
  (l.map (fun x => (x - lmean l) ^ 2)).sum / ((l.length : ℝ) - 1)

/-- Sample standard deviation with `ddof = 1`. -/
noncomputable def sampleStd (l : List ℝ) : ℝ := Real.sqrt (sampleVar l)

/-- Sample covariance of paired observations with `ddof = 1`. -/
noncomputable def sampleCov (l : List (ℝ × ℝ)) : ℝ :=
  (l.map (fun p => (p.1 - lmean (l.map Prod.fst)) * (p.2 - lmean (l.map Prod.snd)))).sum
    / ((l.length : ℝ) - 1)

/-- Whether every entry of a window is a valid (non-NaN) observation. -/
def allSome {α : Type} (l : List (Option α)) : Bool := l.all (fun x => x.isSome)

/-- The positional window `[i-w+1, i]` of a series. -/
def rwindow (s : ℕ → Option ℝ) (w i : ℕ) : List (Option ℝ) :=
  (List.range w).map (fun j => s (i + 1 - w + j))

/-- `series.rolling(w).mean()` at position `i`. -/
noncomputable def rollingMean (s : ℕ → Option ℝ) (w i : ℕ) : Option ℝ :=
  if w ≤ i + 1 ∧ allSome (rwindow s w i) = true
  then some (lmean ((rwindow s w i).filterMap id)) else none

/-- `series.rolling(w).std()` at position `i`. -/
noncomputable def rollingStd (s : ℕ → Option ℝ) (w i : ℕ) : Option ℝ :=
  if w ≤ i + 1 ∧ allSome (rwindow s w i) = true
  then some (sampleStd ((rwindow s w i).filterMap id)) else none

/-- `series.rolling(w).var()` at position `i`. -/
noncomputable def rollingVar (s : ℕ → Option ℝ) (w i : ℕ) : Option ℝ :=
  if w ≤ i + 1 ∧ allSome (rwindow s w i) = true
  then some (sampleVar ((rwindow s w i).filterMap id)) else none

/-- `s1.rolling(w).cov(s2)` at position `i` (pairwise-valid observations). -/
noncomputable def rollingCov (s1 s2 : ℕ → Option ℝ) (w i : ℕ) : Option ℝ :=
  if w ≤ i + 1 ∧ (allSome (rwindow s1 w i) && allSome (rwindow s2 w i)) = true
  then some (sampleCov (((rwindow s1 w i).zip (rwindow s2 w i)).filterMap
    (fun p => p.1.bind (fun a => p.2.map (fun b => (a, b)))))) else none

/-- NaN-propagating subtraction of two columns. -/
def osub (a b : Option ℝ) : Option ℝ := a.bind (fun x => b.map (fun y => x - y))

/-- One ticker's date-ascending price history (columns of the price panel). -/
structure TickerFrame where
  name : String
  n : ℕ
  dt : ℕ → ℕ
  close : ℕ → ℝ
  volume : ℕ → ℝ

/-- The macro panel: date-indexed curve slope and credit spread series. -/
structure MacroFrame where
  m : ℕ
  dt : ℕ → ℕ
  curve_slope : ℕ → ℝ
  credit_spread : ℕ → ℝ

/-- One fundamentals snapshot row. -/
structure FundRow where
  ticker : String
  asof : ℕ
  market_cap : Option ℝ
  trailing_pe : Option ℝ
  price_to_book : Option ℝ
  profit_margins : Option ℝ
  operating_margins : Option ℝ
  return_on_equity : Option ℝ

/-- The fundamentals panel: its rows plus which optional columns the frame
actually carries (`"trailing_pe" in p.columns` etc.). -/
structure FundPanel where
  rows : List FundRow
  hasMcap : Bool
  hasPe : Bool
  hasPb : Bool
  hasPm : Bool
  hasOm : Bool
  hasRoe : Bool

/-- One news-aggregate row. -/
structure NewsRow where
  ticker : String
  dt : ℕ
  news_sent_7d : ℝ

/-- `_safe_log`: `np.log(np.maximum(x, 1e-12))`. -/
noncomputable def safe_log (x : ℝ) : ℝ := Real.log (max x (1 / 1000000000000))

/-- `groupby("ticker")["close"].pct_change(k)` at position `i` of a ticker. -/
noncomputable def pctChange (g : TickerFrame) (k i : ℕ) : Option ℝ :=
  if k ≤ i ∧ i < g.n then some (g.close i / g.close (i - k) - 1) else none

/-- `close * volume`. -/
noncomputable def dollar_vol (g : TickerFrame) (i : ℕ) : Option ℝ :=
  if i < g.n then some (g.close i * g.volume i) else none

/-- `vol_20d`: rolling 20-day std of daily returns. -/
noncomputable def vol20 (g : TickerFrame) (i : ℕ) : Option ℝ := rollingStd (pctChange g 1) 20 i

/-- `dollar_vol_20d`: rolling 20-day mean dollar volume. -/
noncomputable def dv20 (g : TickerFrame) (i : ℕ) : Option ℝ := rollingMean (dollar_vol g) 20 i

/-- `|ret_1d| / (dollar_vol + 1e-12)` (the Amihud ratio before averaging). -/
noncomputable def illiqRatio (g : TickerFrame) (i : ℕ) : Option ℝ :=
  (pctChange g 1 i).bind (fun r => (dollar_vol g i).map (fun dv => |r| / (dv + 1 / 1000000000000)))

/-- `illiq_amihud`: rolling 20-day mean of the Amihud ratio. -/
noncomputable def illiq20 (g : TickerFrame) (i : ℕ) : Option ℝ := rollingMean (illiqRatio g) 20 i

/-- The market return joined by date: the market ticker's `ret_1d` at the row
of the market frame carrying date `d` (left merge on `dt`). -/
noncomputable def mktRetAt (prices : List TickerFrame) (mt : String) (d : ℕ) : Option ℝ :=
  (prices.find? (fun g => g.name == mt)).bind (fun mg =>
    ((List.range mg.n).find? (fun j => mg.dt j == d)).bind (fun j => pctChange mg 1 j))

/-- `rolling_beta`: rolling covariance over rolling variance, epsilon-guarded
denominator (signals.py lines 85-88). -/
noncomputable def rolling_beta (aret mret : ℕ → Option ℝ) (w i : ℕ) : Option ℝ :=
  (rollingCov aret mret w i).bind (fun c =>
    (rollingVar mret w i).map (fun v => c / (v + 1 / 1000000000000)))

/-- The `beta_mkt` column of ticker `g` at position `i`. -/
noncomputable def betaCol (prices : List TickerFrame) (mt : String) (g : TickerFrame) (i : ℕ) :
    Option ℝ :=
  rolling_beta (pctChange g 1)
    (fun j => if j < g.n then mktRetAt prices mt (g.dt j) else none) 60 i

/-- A macro series as a list (for its full-history mean and std). -/
noncomputable def seriesVals (f : ℕ → ℝ) (m : ℕ) : List ℝ := (List.range m).map f

/-- Time-series z-score of a macro series at row `j`:
`(x - x.mean()) / (x.std() + 1e-12)`; a series shorter than 2 has NaN std
(`ddof = 1`), which poisons the whole column. -/
noncomputable def macroZ (f : ℕ → ℝ) (m j : ℕ) : Option ℝ :=
  if 2 ≤ m then
    some ((f j - lmean (seriesVals f m)) / (sampleStd (seriesVals f m) + 1 / 1000000000000))
  else none

/-- The z-scored macro value joined by date (left merge on `dt`). -/
noncomputable def macroZAt (mf : MacroFrame) (f : ℕ → ℝ) (d : ℕ) : Option ℝ :=
  ((List.range mf.m).find? (fun j => mf.dt j == d)).bind (fun j => macroZ f mf.m j)

/-- Latest fundamentals snapshot per ticker (`attach_latest_fundamentals`:
sort by asof, keep the last row of each ticker, ties to the later row). -/
def latestFundRow (rows : List FundRow) (t : String) : Option FundRow :=
  (rows.filter (fun r => r.ticker == t)).foldl
    (fun acc r =>
      match acc with
      | none => some r
      | some a => if a.asof ≤ r.asof then some r else some a) none

/-- Fundamentals are attached only when present and non-empty
(`if fundamentals is not None and len(fundamentals) > 0`). -/
def effFund (f? : Option FundPanel) : Option FundPanel :=
  match f? with
  | none => none
  | some fp => if fp.rows.isEmpty then none else some fp

/-- The trailing-P/E arm of `value_raw`:
`np.where(pe.notna() & (pe > 0), -safe_log(pe), NaN)` for one ticker. -/
noncomputable def peStep1 (fp : FundPanel) (t : String) : Option ℝ :=
  ((latestFundRow fp.rows t).bind (fun r => r.trailing_pe)).bind
    (fun x => if 0 < x then some (-(safe_log x)) else none)

/-- The price-to-book arm of `value_raw`. -/
noncomputable def pbStep (fp : FundPanel) (t : String) : Option ℝ :=
  ((latestFundRow fp.rows t).bind (fun r => r.price_to_book)).bind
    (fun x => if 0 < x then some (-(safe_log x)) else none)

/-- The `value_raw` column for one ticker (constant across the ticker's
rows, since the latest snapshot is merged per ticker).  `tickers` is the list
of tickers actually contributing rows, over which `np.all(pd.isna(...))`
ranges: the price/book arm is used only when the trailing-P/E column is
absent or has no positive value anywhere in the panel. -/
noncomputable def value_raw (f? : Option FundPanel) (tickers : List String) (t : String) :
    Option ℝ :=
  match effFund f? with
  | none => none
  | some fp =>
    if fp.hasPe = true ∧ ¬ (∀ s ∈ tickers, peStep1 fp s = none) then peStep1 fp t
    else if fp.hasPb then pbStep fp t
    else none

/-- The `quality_raw` column for one ticker: profit margins, filling its NaNs
from operating margins, filling remaining NaNs from return on equity, over
whichever of those columns exist. -/
noncomputable def quality_raw (f? : Option FundPanel) (t : String) : Option ℝ :=
  match effFund f? with
  | none => none
  | some fp =>
    ((if fp.hasPm then [FundRow.profit_margins] else []) ++
     (if fp.hasOm then [FundRow.operating_margins] else []) ++
     (if fp.hasRoe then [FundRow.return_on_equity] else [])).foldl
      (fun acc get =>
        match acc with
        | some v => some v
        | none => (latestFundRow fp.rows t).bind get) none

/-- The `log_mktcap` column: log of a positive market cap when that column
exists and the cell qualifies, else log of 20-day mean dollar volume. -/
noncomputable def logMktcapCol (f? : Option FundPanel) (g : TickerFrame) (i : ℕ) : Option ℝ :=
  let fallback := (dv20 g i).map safe_log
  match effFund f? with
  | none => fallback
  | some fp =>
    if fp.hasMcap then
      match (latestFundRow fp.rows g.name).bind (fun r => r.market_cap) with
      | some mc => if 0 < mc then some (safe_log mc) else fallback
      | none => fallback
    else fallback

/-- The `news_sent_7d` column: left merge on (ticker, dt), NaN filled with 0;
a missing or empty news panel is the constant 0 column. -/
noncomputable def news7 (news? : Option (List NewsRow)) (t : String) (d : ℕ) : ℝ :=
  match news? with
  | none => 0
  | some l =>
    if l.isEmpty then 0
    else (((l.find? (fun r => r.ticker == t && r.dt == d)).map
      (fun r => r.news_sent_7d)).getD 0)

/-- The ten factor columns of the output panel. -/
inductive Fcol where
  | beta_mkt | log_mktcap | value_z | mom_12_1 | vol_20d
  | illiq_amihud | quality_z | macro_sens | credit_sens | news_sent_7d
  deriving DecidableEq

/-- The `FEATURE_COLS` ordering of signals.py as `Fcol` values. -/
def featureFcols : List Fcol :=
  [Fcol.beta_mkt, Fcol.log_mktcap, Fcol.value_z, Fcol.mom_12_1, Fcol.vol_20d,
   Fcol.illiq_amihud, Fcol.quality_z, Fcol.macro_sens, Fcol.credit_sens, Fcol.news_sent_7d]

/-- The eight factor columns standardized directly by the per-column loop
(every factor except `value_z` and `quality_z`). -/
def directCols : List Fcol :=
  [Fcol.beta_mkt, Fcol.log_mktcap, Fcol.mom_12_1, Fcol.vol_20d,
   Fcol.illiq_amihud, Fcol.macro_sens, Fcol.credit_sens, Fcol.news_sent_7d]

/-- One row of the factor panel: ticker, date, target (`ret_1d` after the
rename of `ret_1d_fwd`), the ten factor cells, and the raw value/quality
helper columns (dropped at the very end of `build_signals`). -/
structure SigRow where
  ticker : String
  dt : ℕ
  ret : Option ℝ
  f : Fcol → Option ℝ
  vraw : Option ℝ
  qraw : Option ℝ

/-- Tickers contributing rows to the flattened panel. -/
def tickersOf (prices : List TickerFrame) : List String :=
  (prices.filter (fun g => 0 < g.n)).map (fun g => g.name)

/-- Row `i` of ticker `g` in the pre-standardization panel: all raw columns
of signals.py lines 116-205.  The target is the group's `ret_1d` shifted one
step earlier (`shift(-1)`); `value_z`/`quality_z` are the 0.0 placeholders
that the standardization stage overwrites. -/
noncomputable def mkSigRow (prices : List TickerFrame) (mf : MacroFrame)
    (f? : Option FundPanel) (news? : Option (List NewsRow)) (mt : String)
    (g : TickerFrame) (i : ℕ) : SigRow :=
  { ticker := g.name
    dt := g.dt i
    ret := pctChange g 1 (i + 1)
    f := fun c =>
      match c with
      | Fcol.beta_mkt => betaCol prices mt g i
      | Fcol.log_mktcap => logMktcapCol f? g i
      | Fcol.value_z => some 0
      | Fcol.mom_12_1 => osub (pctChange g 252 i) (pctChange g 21 i)
      | Fcol.vol_20d => vol20 g i
      | Fcol.illiq_amihud => illiq20 g i
      | Fcol.quality_z => some 0
      | Fcol.macro_sens => macroZAt mf mf.curve_slope (g.dt i)
      | Fcol.credit_sens => some ((macroZAt mf mf.credit_spread (g.dt i)).getD 0)
      | Fcol.news_sent_7d => some (news7 news? g.name (g.dt i))
    vraw := value_raw f? (tickersOf prices) g.name
    qraw := quality_raw f? g.name }

/-- The flattened pre-standardization panel (groups concatenated in ticker
order, each in date order). -/
noncomputable def rawRows (prices : List TickerFrame) (mf : MacroFrame)
    (f? : Option FundPanel) (news? : Option (List NewsRow)) (mt : String) : List SigRow :=
  prices.flatMap (fun g => (List.range g.n).map (mkSigRow prices mf f? news? mt g))

/-- The `dropna` filter of line 210: keep rows whose target, beta, momentum,
volatility, illiquidity, macro sensitivity, and size are all present.
(The conjunct order is irrelevant to the result; cheap columns come first.) -/
noncomputable def survives (r : SigRow) : Bool :=
  (r.f Fcol.mom_12_1).isSome && r.ret.isSome && (r.f Fcol.vol_20d).isSome &&
  (r.f Fcol.illiq_amihud).isSome && (r.f Fcol.log_mktcap).isSome &&
  (r.f Fcol.macro_sens).isSome && (r.f Fcol.beta_mkt).isSome

/-- The valid (non-NaN) observations of one column on one date across the
whole panel — the group that `groupby("dt")[c].transform(...)` aggregates. -/
noncomputable def colVals (rows : List SigRow) (d : ℕ) (get : SigRow → Option ℝ) : List ℝ :=
  ((rows.filter (fun r => r.dt == d)).map get).filterMap id

/-- `groupby("dt")[c].transform("mean")` for the group of date `d`. -/
noncomputable def groupMean (rows : List SigRow) (d : ℕ) (get : SigRow → Option ℝ) : Option ℝ :=
  if (colVals rows d get).isEmpty then none else some (lmean (colVals rows d get))

/-- `groupby("dt")[c].transform("std")` for the group of date `d`: NaN when
fewer than two valid observations (`ddof = 1`). -/
noncomputable def groupStd (rows : List SigRow) (d : ℕ) (get : SigRow → Option ℝ) : Option ℝ :=
  if 2 ≤ (colVals rows d get).length then some (sampleStd (colVals rows d get)) else none

/-- One cell of `(out[c] - mu) / (sd + 1e-12)`: NaN whenever the cell, the
group mean, or the group std is NaN. -/
noncomputable def stdCell (rows : List SigRow) (d : ℕ) (get : SigRow → Option ℝ)
    (x : Option ℝ) : Option ℝ :=
  x.bind (fun xv => (groupMean rows d get).bind (fun mu =>
    (groupStd rows d get).map (fun sd => (xv - mu) / (sd + 1 / 1000000000000))))

/-- One row after the per-column cross-sectional standardization loop of
lines 212-219 (which skips `value_z` and `quality_z`); `rows` is the whole
panel over which the `groupby("dt")` statistics range. -/
noncomputable def szRow (rows : List SigRow) (r : SigRow) : SigRow :=
  { r with f := fun c =>
      if c = Fcol.value_z ∨ c = Fcol.quality_z then r.f c
      else stdCell rows r.dt (fun r2 => r2.f c) (r.f c) }

/-- The per-column cross-sectional standardization loop of lines 212-219. -/
noncomputable def stdizeRows (rows : List SigRow) : List SigRow :=
  rows.map (szRow rows)

/-- One row after lines 222-226: `value_z` recomputed from `value_raw` by
date, NaN filled with 0. -/
noncomputable def vzRow (rows : List SigRow) (r : SigRow) : SigRow :=
  { r with f := fun c =>
      if c = Fcol.value_z then some ((stdCell rows r.dt (fun r2 => r2.vraw) r.vraw).getD 0)
      else r.f c }

/-- Lines 222-226 over the whole panel. -/
noncomputable def valueZRows (rows : List SigRow) : List SigRow :=
  rows.map (vzRow rows)

/-- One row after lines 229-233: `quality_z` recomputed from `quality_raw`
by date, NaN filled with 0. -/
noncomputable def qzRow (rows : List SigRow) (r : SigRow) : SigRow :=
  { r with f := fun c =>
      if c = Fcol.quality_z then some ((stdCell rows r.dt (fun r2 => r2.qraw) r.qraw).getD 0)
      else r.f c }

/-- Lines 229-233 over the whole panel. -/
noncomputable def qualityZRows (rows : List SigRow) : List SigRow :=
  rows.map (qzRow rows)

/-- The panel after the `dropna` of line 210. -/
noncomputable def dropRows (prices : List TickerFrame) (mf : MacroFrame)
    (f? : Option FundPanel) (news? : Option (List NewsRow)) (mt : String) : List SigRow :=
  (rawRows prices mf f? news? mt).filter survives

/-- Embedding of `build_signals`: raw columns, `dropna`, per-column
cross-sectional standardization, then the `value_z`/`quality_z` passes. -/
noncomputable def build_signals (prices : List TickerFrame) (mf : MacroFrame)
    (f? : Option FundPanel) (news? : Option (List NewsRow)) (mt : String) : List SigRow :=
  qualityZRows (valueZRows (stdizeRows (dropRows prices mf f? news? mt)))

end EquityModel

namespace EquityModel

/-! ### Structural lemmas about the standardization stage -/

/-- The standardization stages never touch ticker, date, target, or the raw
helper columns. -/
theorem szRow_dt (rows : List SigRow) (r : SigRow) : (szRow rows r).dt = r.dt := rfl

theorem vzRow_dt (rows : List SigRow) (r : SigRow) : (vzRow rows r).dt = r.dt := rfl

theorem qzRow_dt (rows : List SigRow) (r : SigRow) : (qzRow rows r).dt = r.dt := rfl

theorem szRow_ret (rows : List SigRow) (r : SigRow) : (szRow rows r).ret = r.ret := rfl

theorem vzRow_ret (rows : List SigRow) (r : SigRow) : (vzRow rows r).ret = r.ret := rfl

theorem qzRow_ret (rows : List SigRow) (r : SigRow) : (qzRow rows r).ret = r.ret := rfl

theorem szRow_vraw (rows : List SigRow) (r : SigRow) : (szRow rows r).vraw = r.vraw := rfl

theorem szRow_qraw (rows : List SigRow) (r : SigRow) : (szRow rows r).qraw = r.qraw := rfl

theorem vzRow_qraw (rows : List SigRow) (r : SigRow) : (vzRow rows r).qraw = r.qraw := rfl

/-- The direct standardization loop on a column other than
`value_z`/`quality_z`. -/
theorem szRow_f_direct (rows : List SigRow) (r : SigRow) (c : Fcol)
    (h1 : ¬ c = Fcol.value_z) (h2 : ¬ c = Fcol.quality_z) :
    (szRow rows r).f c = stdCell rows r.dt (fun r2 => r2.f c) (r.f c) := by
  simp [szRow, h1, h2]

/-- The `value_z` pass leaves other columns unchanged. -/
theorem vzRow_f_other (rows : List SigRow) (r : SigRow) (c : Fcol)
    (h1 : ¬ c = Fcol.value_z) : (vzRow rows r).f c = r.f c := by
  simp [vzRow, h1]

/-- The `quality_z` pass leaves other columns unchanged. -/
theorem qzRow_f_other (rows : List SigRow) (r : SigRow) (c : Fcol)
    (h1 : ¬ c = Fcol.quality_z) : (qzRow rows r).f c = r.f c := by
  simp [qzRow, h1]

/-- The `value_z` column after its pass. -/
theorem vzRow_f_value (rows : List SigRow) (r : SigRow) :
    (vzRow rows r).f Fcol.value_z
      = some ((stdCell rows r.dt (fun r2 => r2.vraw) r.vraw).getD 0) := by
  simp [vzRow]

/-- The `quality_z` column after its pass. -/
theorem qzRow_f_quality (rows : List SigRow) (r : SigRow) :
    (qzRow rows r).f Fcol.quality_z
      = some ((stdCell rows r.dt (fun r2 => r2.qraw) r.qraw).getD 0) := by
  simp [qzRow]

/-- Filtering a date group commutes with a date-preserving row map. -/
theorem filter_dt_map (f : SigRow → SigRow) (hdt : ∀ r, (f r).dt = r.dt) :
    ∀ (rows : List SigRow) (d : ℕ),
      (rows.map f).filter (fun r => r.dt == d) = (rows.filter (fun r => r.dt == d)).map f := by
  intro rows d
  induction rows with
  | nil => rfl
  | cons r rs ih =>
    simp only [List.map_cons, List.filter_cons, hdt]
    by_cases h : (r.dt == d) = true
    · simp [h, ih]
    · simp [h, ih]

/-- Date-group sizes are invariant under a date-preserving row map. -/
theorem length_filter_dt_map (f : SigRow → SigRow) (hdt : ∀ r, (f r).dt = r.dt)
    (rows : List SigRow) (d : ℕ) :
    ((rows.map f).filter (fun r => r.dt == d)).length
      = (rows.filter (fun r => r.dt == d)).length := by
  rw [filter_dt_map f hdt rows d, List.length_map]

/-- Column extraction through a date-preserving row map. -/
theorem colVals_map_get (f : SigRow → SigRow) (hdt : ∀ r, (f r).dt = r.dt)
    (rows : List SigRow) (d : ℕ) (get : SigRow → Option ℝ) :
    colVals (rows.map f) d get = colVals rows d (fun r => get (f r)) := by
  unfold colVals
  rw [filter_dt_map f hdt rows d, List.map_map]
  rfl

/-- Column extraction only depends on the getter's values on the group. -/
theorem colVals_congr (rows : List SigRow) (d : ℕ) (get get2 : SigRow → Option ℝ)
    (h : ∀ r ∈ rows, r.dt = d → get r = get2 r) :
    colVals rows d get = colVals rows d get2 := by
  unfold colVals
  have : ∀ r ∈ rows.filter (fun r => r.dt == d), get r = get2 r := by
    intro r hr
    obtain ⟨hmem, hd⟩ := List.mem_filter.mp hr
    exact h r hmem (by simpa using hd)
  rw [List.map_congr_left this]

/-- A column never has more valid observations than its date group has rows. -/
theorem colVals_length_le (rows : List SigRow) (d : ℕ) (get : SigRow → Option ℝ) :
    (colVals rows d get).length ≤ (rows.filter (fun r => r.dt == d)).length := by
  unfold colVals
  have h1 := List.length_filterMap_le (id : Option ℝ → Option ℝ)
    ((rows.filter (fun r => r.dt == d)).map get)
  simpa using h1

/-- `filterMap id` keeps everything when every entry is present. -/
theorem length_filterMap_id_of_all_some {α : Type} :
    ∀ l : List (Option α), (∀ x ∈ l, x.isSome = true) → (l.filterMap id).length = l.length := by
  intro l
  induction l with
  | nil => intro _; rfl
  | cons x xs ih =>
    intro h
    obtain ⟨v, hv⟩ := Option.isSome_iff_exists.mp (h x (List.mem_cons_self x xs))
    have hrest := ih (fun y hy => h y (List.mem_cons_of_mem x hy))
    rw [hv]
    simp [hrest]

/-- When every row of the panel carries the column, the group's valid
observation count equals the group size. -/
theorem colVals_length_of_all_some (rows : List SigRow) (d : ℕ) (get : SigRow → Option ℝ)
    (h : ∀ r ∈ rows, (get r).isSome = true) :
    (colVals rows d get).length = (rows.filter (fun r => r.dt == d)).length := by
  unfold colVals
  rw [length_filterMap_id_of_all_some]
  · exact List.length_map _ _
  · intro x hx
    obtain ⟨r, hr, hrx⟩ := List.mem_map.mp hx
    exact hrx ▸ h r (List.mem_of_mem_filter hr)

/-- A date group with at most one row has NaN cross-sectional std. -/
theorem groupStd_none_of_singleton (rows : List SigRow) (d : ℕ) (get : SigRow → Option ℝ)
    (h : (rows.filter (fun r => r.dt == d)).length ≤ 1) :
    groupStd rows d get = none := by
  unfold groupStd
  rw [if_neg]
  intro hc
  have := colVals_length_le rows d get
  omega

/-- A NaN cross-sectional std poisons every standardized cell of the group. -/
theorem stdCell_none_of_groupStd_none (rows : List SigRow) (d : ℕ) (get : SigRow → Option ℝ)
    (x : Option ℝ) (h : groupStd rows d get = none) :
    stdCell rows d get x = none := by
  unfold stdCell
  rw [h]
  cases x with
  | none => rfl
  | some xv =>
    cases groupMean rows d get with
    | none => rfl
    | some mu => rfl

end EquityModel

namespace EquityModel

/-- Every output row of `build_signals` is the image of a surviving
pre-standardization row under the three standardization passes. -/
theorem mem_build_signals (prices : List TickerFrame) (mf : MacroFrame)
    (f? : Option FundPanel) (news? : Option (List NewsRow)) (mt : String) (r : SigRow) :
    r ∈ build_signals prices mf f? news? mt ↔
      ∃ r0, r0 ∈ dropRows prices mf f? news? mt ∧
        r = qzRow (valueZRows (stdizeRows (dropRows prices mf f? news? mt)))
              (vzRow (stdizeRows (dropRows prices mf f? news? mt))
                (szRow (dropRows prices mf f? news? mt) r0)) := by
  constructor
  · intro h
    obtain ⟨r2, h2, hr⟩ := List.mem_map.mp h
    obtain ⟨r1, h1, hr2⟩ := List.mem_map.mp h2
    obtain ⟨r0, h0, hr1⟩ := List.mem_map.mp h1
    refine ⟨r0, h0, ?_⟩
    rw [← hr, ← hr2, ← hr1]
  · rintro ⟨r0, h0, hr⟩
    rw [hr]
    exact List.mem_map_of_mem _ (List.mem_map_of_mem _ (List.mem_map_of_mem _ h0))

/-- Every pre-standardization row comes from some position of some ticker. -/
theorem rawRows_shape (prices : List TickerFrame) (mf : MacroFrame)
    (f? : Option FundPanel) (news? : Option (List NewsRow)) (mt : String) (r : SigRow)
    (hr : r ∈ rawRows prices mf f? news? mt) :
    ∃ g, g ∈ prices ∧ ∃ i, i < g.n ∧ r = mkSigRow prices mf f? news? mt g i := by
  obtain ⟨g, hg, hmem⟩ := List.mem_flatMap.mp hr
  obtain ⟨i, hi, hrow⟩ := List.mem_map.mp hmem
  exact ⟨g, hg, i, List.mem_range.mp hi, hrow.symm⟩

/-- Surviving rows have all eight directly standardized raw columns present:
seven come from the `dropna` subset, and `credit_sens` / `news_sent_7d` are
zero-filled total columns by construction. -/
theorem dropRows_direct_some (prices : List TickerFrame) (mf : MacroFrame)
    (f? : Option FundPanel) (news? : Option (List NewsRow)) (mt : String) (r : SigRow)
    (hr : r ∈ dropRows prices mf f? news? mt) :
    ∀ c ∈ directCols, (r.f c).isSome = true := by
  obtain ⟨hraw, hsurv⟩ := List.mem_filter.mp hr
  unfold survives at hsurv
  simp only [Bool.and_eq_true] at hsurv
  obtain ⟨⟨⟨⟨⟨⟨hmom, hret⟩, hvol⟩, hilliq⟩, hlog⟩, hmacro⟩, hbeta⟩ := hsurv
  obtain ⟨g, hg, i, hi, hrow⟩ := rawRows_shape prices mf f? news? mt r hraw
  intro c hc
  fin_cases hc
  · exact hbeta
  · exact hlog
  · exact hmom
  · exact hvol
  · exact hilliq
  · exact hmacro
  · rw [hrow]; rfl
  · rw [hrow]; rfl

/-- Surviving rows have a present target. -/
theorem dropRows_ret_some (prices : List TickerFrame) (mf : MacroFrame)
    (f? : Option FundPanel) (news? : Option (List NewsRow)) (mt : String) (r : SigRow)
    (hr : r ∈ dropRows prices mf f? news? mt) : r.ret.isSome = true := by
  obtain ⟨hraw, hsurv⟩ := List.mem_filter.mp hr
  unfold survives at hsurv
  simp only [Bool.and_eq_true] at hsurv
  exact hsurv.1.1.1.1.1.2

/-- Claim C10 (confirmed): a row whose date no other row of the output panel
shares is still emitted, its target is present, but all eight directly
standardized factors are NaN (the single-element cross-sectional std is NaN
and the quotient is not zero-filled), while `value_z` and `quality_z` fall
back to 0 through their `fillna(0.0)`. -/
theorem c10_single_ticker_date (prices : List TickerFrame) (mf : MacroFrame)
    (f? : Option FundPanel) (news? : Option (List NewsRow)) (mt : String) (r : SigRow)
    (hr : r ∈ build_signals prices mf f? news? mt)
    (hsing : ((build_signals prices mf f? news? mt).filter
        (fun r2 => r2.dt == r.dt)).length = 1) :
    r.ret.isSome = true ∧
    (∀ c ∈ directCols, r.f c = none) ∧
    r.f Fcol.value_z = some 0 ∧
    r.f Fcol.quality_z = some 0 := by
  obtain ⟨r0, h0, hreq⟩ := (mem_build_signals prices mf f? news? mt r).mp hr
  have hdt : r.dt = r0.dt := by rw [hreq]; rfl
  have hcount : ((dropRows prices mf f? news? mt).filter
      (fun r2 => r2.dt == r0.dt)).length = 1 := by
    have e3 := length_filter_dt_map
      (qzRow (valueZRows (stdizeRows (dropRows prices mf f? news? mt))))
      (qzRow_dt _) (valueZRows (stdizeRows (dropRows prices mf f? news? mt))) r0.dt
    have e2 := length_filter_dt_map
      (vzRow (stdizeRows (dropRows prices mf f? news? mt)))
      (vzRow_dt _) (stdizeRows (dropRows prices mf f? news? mt)) r0.dt
    have e1 := length_filter_dt_map
      (szRow (dropRows prices mf f? news? mt))
      (szRow_dt _) (dropRows prices mf f? news? mt) r0.dt
    have hb : ((build_signals prices mf f? news? mt).filter
        (fun r2 => r2.dt == r0.dt)).length = 1 := by
      rw [← hdt]; exact hsing
    unfold build_signals qualityZRows at hb
    rw [e3] at hb
    unfold valueZRows at hb
    rw [e2] at hb
    unfold stdizeRows at hb
    rw [e1] at hb
    exact hb
  have hcount1 : ((stdizeRows (dropRows prices mf f? news? mt)).filter
      (fun r2 => r2.dt == r0.dt)).length = 1 := by
    unfold stdizeRows
    rw [length_filter_dt_map (szRow (dropRows prices mf f? news? mt)) (szRow_dt _)]
    exact hcount
  have hcount2 : ((valueZRows (stdizeRows (dropRows prices mf f? news? mt))).filter
      (fun r2 => r2.dt == r0.dt)).length = 1 := by
    unfold valueZRows
    rw [length_filter_dt_map (vzRow (stdizeRows (dropRows prices mf f? news? mt))) (vzRow_dt _)]
    exact hcount1
  have hret : r.ret.isSome = true := by
    have : r.ret = r0.ret := by rw [hreq]; rfl
    rw [this]
    exact dropRows_ret_some prices mf f? news? mt r0 h0
  have hcell : ∀ c : Fcol, ¬ c = Fcol.value_z → ¬ c = Fcol.quality_z → r.f c = none := by
    intro c hnv hnq
    rw [hreq, qzRow_f_other _ _ _ hnq, vzRow_f_other _ _ _ hnv, szRow_f_direct _ _ _ hnv hnq]
    exact stdCell_none_of_groupStd_none _ _ _ _
      (groupStd_none_of_singleton _ _ _ (le_of_eq hcount))
  refine ⟨hret, ?_, ?_, ?_⟩
  · intro c hc
    fin_cases hc
    · exact hcell Fcol.beta_mkt (by decide) (by decide)
    · exact hcell Fcol.log_mktcap (by decide) (by decide)
    · exact hcell Fcol.mom_12_1 (by decide) (by decide)
    · exact hcell Fcol.vol_20d (by decide) (by decide)
    · exact hcell Fcol.illiq_amihud (by decide) (by decide)
    · exact hcell Fcol.macro_sens (by decide) (by decide)
    · exact hcell Fcol.credit_sens (by decide) (by decide)
    · exact hcell Fcol.news_sent_7d (by decide) (by decide)
  · rw [hreq, qzRow_f_other _ _ _ (by decide), vzRow_f_value]
    rw [szRow_dt, szRow_vraw]
    rw [stdCell_none_of_groupStd_none _ _ _ _
      (groupStd_none_of_singleton _ _ _ (le_of_eq hcount1))]
    rfl
  · rw [hreq, qzRow_f_quality]
    have hd : (vzRow (stdizeRows (dropRows prices mf f? news? mt))
        (szRow (dropRows prices mf f? news? mt) r0)).dt = r0.dt := by
      rw [vzRow_dt, szRow_dt]
    have hq : (vzRow (stdizeRows (dropRows prices mf f? news? mt))
        (szRow (dropRows prices mf f? news? mt) r0)).qraw = r0.qraw := by
      rw [vzRow_qraw, szRow_qraw]
    rw [hd, hq]
    rw [stdCell_none_of_groupStd_none _ _ _ _
      (groupStd_none_of_singleton _ _ _ (le_of_eq hcount2))]
    rfl

end EquityModel

namespace EquityModel

/-! ### Concrete panels for witnesses and counterexamples

Constant price 1, volume 1, constant macro series, no fundamentals, no news:
every return is 0, every rolling statistic is defined exactly where its
warm-up window is, and with 254 observations (the minimum for a 252-day
percent change plus a forward return) exactly the row at position 252
survives the `dropna`. -/

/-- Market ticker with 254 trading days of constant prices. -/
def spySym : TickerFrame :=
  { name := "SPY", n := 254, dt := fun i => i, close := fun _ => 1, volume := fun _ => 1 }

/-- A second ticker with the same history. -/
def aaaSym : TickerFrame := { spySym with name := "AAA" }

/-- Constant macro series covering the shared dates. -/
def macroSym : MacroFrame :=
  { m := 254, dt := fun i => i, curve_slope := fun _ => 1, credit_spread := fun _ => 1 }

/-- Market ticker with one extra trading day (date 254). -/
def spyLong : TickerFrame := { spySym with n := 255 }

/-- Macro series covering the longer history. -/
def macroLong : MacroFrame := { macroSym with m := 255 }

/-- Placeholder row for safe indexing. -/
noncomputable def junkRow : SigRow :=
  { ticker := "", dt := 0, ret := none, f := fun _ => none, vraw := none, qraw := none }

end EquityModel

namespace EquityModel

/-- Claim C7 (corrected): rows are dropped exactly when one of the seven
`dropna` columns (target, beta, momentum, volatility, illiquidity, macro
sensitivity, size) is missing before standardization — `value_z` and
`quality_z` never cause drops.  In the returned panel the target, `value_z`
and `quality_z` are always present (the latter two fall back to 0), and the
eight directly standardized factor columns are present on every date shared
by at least two rows; on single-row dates they are NaN (see C10). -/
theorem c7_dropna_and_presence (prices : List TickerFrame) (mf : MacroFrame)
    (f? : Option FundPanel) (news? : Option (List NewsRow)) (mt : String) :
    (∀ r0 ∈ rawRows prices mf f? news? mt,
       (r0 ∈ dropRows prices mf f? news? mt ↔
         (r0.ret.isSome = true ∧ (r0.f Fcol.beta_mkt).isSome = true ∧
          (r0.f Fcol.mom_12_1).isSome = true ∧ (r0.f Fcol.vol_20d).isSome = true ∧
          (r0.f Fcol.illiq_amihud).isSome = true ∧ (r0.f Fcol.macro_sens).isSome = true ∧
          (r0.f Fcol.log_mktcap).isSome = true))) ∧
    (∀ r ∈ build_signals prices mf f? news? mt,
       r.ret.isSome = true ∧ (r.f Fcol.value_z).isSome = true ∧
       (r.f Fcol.quality_z).isSome = true ∧
       (2 ≤ ((build_signals prices mf f? news? mt).filter
           (fun r2 => r2.dt == r.dt)).length →
         ∀ c ∈ directCols, (r.f c).isSome = true)) := by
  constructor
  · intro r0 hr0
    unfold dropRows
    rw [List.mem_filter]
    unfold survives
    simp only [Bool.and_eq_true]
    constructor
    · rintro ⟨-, ⟨⟨⟨⟨⟨⟨hmom, hret⟩, hvol⟩, hilliq⟩, hlog⟩, hmacro⟩, hbeta⟩⟩
      exact ⟨hret, hbeta, hmom, hvol, hilliq, hmacro, hlog⟩
    · rintro ⟨hret, hbeta, hmom, hvol, hilliq, hmacro, hlog⟩
      exact ⟨hr0, ⟨⟨⟨⟨⟨⟨hmom, hret⟩, hvol⟩, hilliq⟩, hlog⟩, hmacro⟩, hbeta⟩⟩
  · intro r hr
    obtain ⟨r0, h0, hreq⟩ := (mem_build_signals prices mf f? news? mt r).mp hr
    have hdt : r.dt = r0.dt := by rw [hreq]; rfl
    refine ⟨?_, ?_, ?_, ?_⟩
    · have : r.ret = r0.ret := by rw [hreq]; rfl
      rw [this]
      exact dropRows_ret_some prices mf f? news? mt r0 h0
    · rw [hreq, qzRow_f_other _ _ _ (by decide), vzRow_f_value]
      rfl
    · rw [hreq, qzRow_f_quality]
      rfl
    · intro h2 c hc
      have hnv : ¬ c = Fcol.value_z := by
        intro hcc
        rw [hcc] at hc
        exact absurd hc (by decide)
      have hnq : ¬ c = Fcol.quality_z := by
        intro hcc
        rw [hcc] at hc
        exact absurd hc (by decide)
      rw [hreq, qzRow_f_other _ _ _ hnq, vzRow_f_other _ _ _ hnv, szRow_f_direct _ _ _ hnv hnq]
      -- the group of r0's date in the dropped panel has at least two rows
      have hcount : 2 ≤ ((dropRows prices mf f? news? mt).filter
          (fun r2 => r2.dt == r0.dt)).length := by
        have e3 := length_filter_dt_map
          (qzRow (valueZRows (stdizeRows (dropRows prices mf f? news? mt))))
          (qzRow_dt _) (valueZRows (stdizeRows (dropRows prices mf f? news? mt))) r0.dt
        have e2 := length_filter_dt_map
          (vzRow (stdizeRows (dropRows prices mf f? news? mt)))
          (vzRow_dt _) (stdizeRows (dropRows prices mf f? news? mt)) r0.dt
        have e1 := length_filter_dt_map
          (szRow (dropRows prices mf f? news? mt))
          (szRow_dt _) (dropRows prices mf f? news? mt) r0.dt
        have hb : 2 ≤ ((build_signals prices mf f? news? mt).filter
            (fun r2 => r2.dt == r0.dt)).length := by
          rw [← hdt]; exact h2
        unfold build_signals qualityZRows at hb
        rw [e3] at hb
        unfold valueZRows at hb
        rw [e2] at hb
        unfold stdizeRows at hb
        rw [e1] at hb
        exact hb
      have hall : ∀ rr ∈ dropRows prices mf f? news? mt, (rr.f c).isSome = true :=
        fun rr hrr => dropRows_direct_some prices mf f? news? mt rr hrr c hc
      have hvlen : 2 ≤ (colVals (dropRows prices mf f? news? mt) r0.dt
          (fun r2 => r2.f c)).length := by
        rw [colVals_length_of_all_some _ _ _ hall]
        exact hcount
      obtain ⟨xv, hxv⟩ := Option.isSome_iff_exists.mp
        (dropRows_direct_some prices mf f? news? mt r0 h0 c hc)
      have hstd : groupStd (dropRows prices mf f? news? mt) r0.dt (fun r2 => r2.f c)
          = some (sampleStd (colVals (dropRows prices mf f? news? mt) r0.dt
              (fun r2 => r2.f c))) := by
        unfold groupStd
        rw [if_pos hvlen]
      have hmean : groupMean (dropRows prices mf f? news? mt) r0.dt (fun r2 => r2.f c)
          = some (lmean (colVals (dropRows prices mf f? news? mt) r0.dt
              (fun r2 => r2.f c))) := by
        unfold groupMean
        rw [if_neg]
        intro hemp
        rw [List.isEmpty_iff] at hemp
        rw [hemp] at hvlen
        exact absurd hvlen (by decide)
      unfold stdCell
      rw [hxv, hmean, hstd]
      rfl

/-- Claim C7 counterexample: on a concrete two-ticker input where `"SPY"` has
one more trading day than `"AAA"`, the returned panel contains the row
`("SPY", 253)` whose standardized `beta_mkt` is NaN, so not every row of the
returned panel has a non-missing beta column (the target is present in every
row, as the third component shows). -/
theorem c7_counterexample :
    (build_signals [spyLong, aaaSym] macroLong none none "SPY").map
        (fun r => (r.ticker, r.dt, r.ret.isSome, (r.f Fcol.beta_mkt).isNone))
      = [("SPY", 252, true, false), ("SPY", 253, true, true), ("AAA", 252, true, false)] := by
  decide

/-- Witness for `c7_dropna_and_presence` at the symmetric two-ticker input:
the surviving row of `"SPY"` (position 0, date 252, a two-row date) has
target, `value_z`, `quality_z` and standardized beta all present. -/
theorem c7_dropna_and_presence_witness :
    ((build_signals [spySym, aaaSym] macroSym none none "SPY").getD 0 junkRow).ret.isSome
        = true ∧
    (((build_signals [spySym, aaaSym] macroSym none none "SPY").getD 0 junkRow).f
        Fcol.value_z).isSome = true ∧
    (((build_signals [spySym, aaaSym] macroSym none none "SPY").getD 0 junkRow).f
        Fcol.quality_z).isSome = true ∧
    (((build_signals [spySym, aaaSym] macroSym none none "SPY").getD 0 junkRow).f
        Fcol.beta_mkt).isSome = true := by
  have hlen : 0 < (build_signals [spySym, aaaSym] macroSym none none "SPY").length := by
    decide
  have hget : (build_signals [spySym, aaaSym] macroSym none none "SPY").getD 0 junkRow
      = (build_signals [spySym, aaaSym] macroSym none none "SPY")[0] := by
    rw [List.getD_eq_getElem?_getD, List.getElem?_eq_getElem hlen]
    rfl
  have hmem := List.getElem_mem hlen
  have hmem2 : (build_signals [spySym, aaaSym] macroSym none none "SPY").getD 0 junkRow
      ∈ build_signals [spySym, aaaSym] macroSym none none "SPY" := by
    rw [hget]; exact hmem
  have hmain := (c7_dropna_and_presence [spySym, aaaSym] macroSym none none "SPY").2
    ((build_signals [spySym, aaaSym] macroSym none none "SPY").getD 0 junkRow) hmem2
  have h2 : 2 ≤ ((build_signals [spySym, aaaSym] macroSym none none "SPY").filter
      (fun r2 => r2.dt
        == ((build_signals [spySym, aaaSym] macroSym none none "SPY").getD 0 junkRow).dt)
      ).length := by
    decide
  exact ⟨hmain.1, hmain.2.1, hmain.2.2.1, hmain.2.2.2 h2 Fcol.beta_mkt (by decide)⟩

/-- Witness for `c10_single_ticker_date` at the asymmetric input: the output
row at position 1 is the `("SPY", 253)` row, alone on its date. -/
theorem c10_single_ticker_date_witness :
    ((build_signals [spyLong, aaaSym] macroLong none none "SPY").getD 1 junkRow).ret.isSome
        = true ∧
    ((build_signals [spyLong, aaaSym] macroLong none none "SPY").getD 1 junkRow).f
        Fcol.beta_mkt = none ∧
    ((build_signals [spyLong, aaaSym] macroLong none none "SPY").getD 1 junkRow).f
        Fcol.vol_20d = none ∧
    ((build_signals [spyLong, aaaSym] macroLong none none "SPY").getD 1 junkRow).f
        Fcol.value_z = some 0 ∧
    ((build_signals [spyLong, aaaSym] macroLong none none "SPY").getD 1 junkRow).f
        Fcol.quality_z = some 0 := by
  have hlen : 1 < (build_signals [spyLong, aaaSym] macroLong none none "SPY").length := by
    decide
  have hget : (build_signals [spyLong, aaaSym] macroLong none none "SPY").getD 1 junkRow
      = (build_signals [spyLong, aaaSym] macroLong none none "SPY")[1] := by
    rw [List.getD_eq_getElem?_getD, List.getElem?_eq_getElem hlen]
    rfl
  have hmem := List.getElem_mem hlen
  have hmem2 : (build_signals [spyLong, aaaSym] macroLong none none "SPY").getD 1 junkRow
      ∈ build_signals [spyLong, aaaSym] macroLong none none "SPY" := by
    rw [hget]; exact hmem
  have hsing : (((build_signals [spyLong, aaaSym] macroLong none none "SPY")).filter
      (fun r2 => r2.dt
        == ((build_signals [spyLong, aaaSym] macroLong none none "SPY").getD 1 junkRow).dt)
      ).length = 1 := by
    decide
  have hmain := c10_single_ticker_date [spyLong, aaaSym] macroLong none none "SPY"
    ((build_signals [spyLong, aaaSym] macroLong none none "SPY").getD 1 junkRow) hmem2 hsing
  exact ⟨hmain.1, hmain.2.1 Fcol.beta_mkt (by decide), hmain.2.1 Fcol.vol_20d (by decide),
    hmain.2.2.1, hmain.2.2.2⟩

end EquityModel

namespace EquityModel

/-! ### Claim C8: the raw momentum column -/

/-- Claim C8 (confirmed): for any per-ticker price series and any row `i`
with at least 252 prior observations, the raw (pre-standardization) momentum
cell equals exactly the 252-day percent change minus the 21-day percent
change of close: `(close_i / close_(i-252) - 1) - (close_i / close_(i-21) - 1)`. -/
theorem c8_momentum_exact (prices : List TickerFrame) (mf : MacroFrame)
    (f? : Option FundPanel) (news? : Option (List NewsRow)) (mt : String)
    (g : TickerFrame) (i : ℕ) (h252 : 252 ≤ i) (hn : i < g.n) :
    (mkSigRow prices mf f? news? mt g i).f Fcol.mom_12_1
      = some ((g.close i / g.close (i - 252) - 1) - (g.close i / g.close (i - 21) - 1)) := by
  have h21 : 21 ≤ i := by omega
  show osub (pctChange g 252 i) (pctChange g 21 i) = _
  unfold pctChange osub
  rw [if_pos ⟨h252, hn⟩, if_pos ⟨h21, hn⟩]
  rfl

/-- Synthetic monotonically increasing price series with 253 observations. -/
def incFrame : TickerFrame :=
  { name := "INC", n := 253, dt := fun i => i, close := fun i => (i : ℝ) + 1,
    volume := fun _ => 1 }

/-- Witness for `c8_momentum_exact` on the synthetic increasing series, at
the first row with full momentum history. -/
theorem c8_momentum_exact_witness :
    (mkSigRow [incFrame] macroSym none none "SPY" incFrame 252).f Fcol.mom_12_1
      = some ((incFrame.close 252 / incFrame.close (252 - 252) - 1)
          - (incFrame.close 252 / incFrame.close (252 - 21) - 1)) :=
  c8_momentum_exact [incFrame] macroSym none none "SPY" incFrame 252
    (by decide) (by decide)

end EquityModel

namespace EquityModel

/-! ### Claim C2: the value factor fallback -/

/-- Fundamentals panel where ticker `"AAA"` has a positive trailing P/E and
no price/book, while ticker `"BBB"` has no trailing P/E but a positive
price/book. -/
def fundC2 : FundPanel :=
  { rows := [
      { ticker := "AAA", asof := 0, market_cap := none, trailing_pe := some 5,
        price_to_book := none, profit_margins := none, operating_margins := none,
        return_on_equity := none },
      { ticker := "BBB", asof := 0, market_cap := none, trailing_pe := none,
        price_to_book := some 2, profit_margins := none, operating_margins := none,
        return_on_equity := none } ],
    hasMcap := false, hasPe := true, hasPb := true, hasPm := false, hasOm := false,
    hasRoe := false }

/-- One-row price history for ticker `"AAA"`. -/
def tinyA : TickerFrame :=
  { name := "AAA", n := 1, dt := fun _ => 0, close := fun _ => 1, volume := fun _ => 1 }

/-- One-row price history for ticker `"BBB"`. -/
def tinyB : TickerFrame := { tinyA with name := "BBB" }

/-- One-day macro panel. -/
def macroTiny : MacroFrame :=
  { m := 1, dt := fun _ => 0, curve_slope := fun _ => 1, credit_spread := fun _ => 1 }

/-- Ticker `"AAA"`'s trailing-P/E arm is defined (P/E 5 is positive). -/
theorem peStep1_fundC2_A : peStep1 fundC2 "AAA" = some (-(safe_log 5)) := by
  show (if (0:ℝ) < 5 then some (-(safe_log 5)) else none) = some (-(safe_log 5))
  rw [if_pos (by norm_num)]

/-- Ticker `"BBB"`'s trailing-P/E arm is NaN (its P/E cell is missing). -/
theorem peStep1_fundC2_B : peStep1 fundC2 "BBB" = none := rfl

/-- Claim C2 (corrected): the price/book fallback is column-level, not
row-level.  Whenever the trailing-P/E column exists and at least one ticker
of the panel has a positive available trailing P/E, every row's raw value is
the trailing-P/E arm — missing where P/E is missing or non-positive — and
price/book is never consulted for any row. -/
theorem c2_value_fallback_column_level (fp : FundPanel) (tickers : List String) (t s0 : String)
    (hpe : fp.hasPe = true) (hne : fp.rows ≠ []) (hs0 : s0 ∈ tickers)
    (hpos : peStep1 fp s0 ≠ none) :
    value_raw (some fp) tickers t = peStep1 fp t := by
  have heff : effFund (some fp) = some fp := by
    show (if fp.rows.isEmpty = true then none else some fp) = some fp
    rw [if_neg (by simpa [List.isEmpty_iff] using hne)]
  simp only [value_raw, heff]
  rw [if_pos]
  constructor
  · exact hpe
  · intro hall
    exact hpos (hall s0 hs0)

/-- Witness for `c2_value_fallback_column_level`: in the concrete panel,
ticker `"BBB"`'s raw value is the (missing) trailing-P/E arm. -/
theorem c2_value_fallback_column_level_witness :
    value_raw (some fundC2) ["AAA", "BBB"] "BBB" = peStep1 fundC2 "BBB" :=
  c2_value_fallback_column_level fundC2 ["AAA", "BBB"] "BBB" "AAA" rfl
    (by simp [fundC2]) (by decide) (by rw [peStep1_fundC2_A]; simp)

/-- Claim C2 counterexample: in the pre-standardization panel built from the
concrete inputs, ticker `"BBB"`'s raw value factor is NaN even though its
price/book (2) is available and positive — the code does not fall back to
price/book row by row, contradicting the claimed per-row fallback (which
would give `-log 2`, a present value). -/
theorem c2_counterexample :
    ((rawRows [tinyA, tinyB] macroTiny (some fundC2) none "SPY").map
        (fun r => (r.ticker, r.vraw.isNone))) = [("AAA", false), ("BBB", true)] ∧
    (latestFundRow fundC2.rows "BBB").bind (fun fr => fr.price_to_book) = some 2 := by
  constructor
  · have hA : value_raw (some fundC2) (tickersOf [tinyA, tinyB]) "AAA"
        = some (-(safe_log 5)) := by
      rw [c2_value_fallback_column_level fundC2 (tickersOf [tinyA, tinyB]) "AAA" "AAA" rfl
        (by simp [fundC2]) (by decide) (by rw [peStep1_fundC2_A]; simp)]
      exact peStep1_fundC2_A
    have hB : value_raw (some fundC2) (tickersOf [tinyA, tinyB]) "BBB" = none := by
      rw [c2_value_fallback_column_level fundC2 (tickersOf [tinyA, tinyB]) "BBB" "AAA" rfl
        (by simp [fundC2]) (by decide) (by rw [peStep1_fundC2_A]; simp)]
      exact peStep1_fundC2_B
    have hnA : tinyA.n = 1 := rfl
    have hnB : tinyB.n = 1 := rfl
    have hnmA : tinyA.name = "AAA" := rfl
    have hnmB : tinyB.name = "BBB" := rfl
    simp [rawRows, mkSigRow, List.range_succ, hnA, hnB, hnmA, hnmB, hA, hB]
  · rfl

end EquityModel

namespace EquityModel

/-! ### Algebra of list mean and standard deviation under the
cross-sectional standardization map -/

theorem sum_map_affine (l : List ℝ) (a s : ℝ) :
    (l.map (fun x => (x - a) / s)).sum = (l.sum - l.length * a) / s := by
  induction l with
  | nil => simp
  | cons x xs ih =>
    simp only [List.map_cons, List.sum_cons, ih, List.length_cons]
    rw [div_add_div_same]
    congr 1
    push_cast
    ring

theorem lmean_map_affine (l : List ℝ) (a s : ℝ) (hl : l ≠ []) :
    lmean (l.map (fun x => (x - a) / s)) = (lmean l - a) / s := by
  unfold lmean
  rw [List.length_map, sum_map_affine]
  have hn : (l.length : ℝ) ≠ 0 := by
    have := List.length_pos.mpr hl
    positivity
  field_simp
  ring

theorem lmean_map_centered (l : List ℝ) (s : ℝ) (hl : l ≠ []) :
    lmean (l.map (fun x => (x - lmean l) / s)) = 0 := by
  rw [lmean_map_affine l (lmean l) s hl]
  simp

theorem sum_map_div (l : List ℝ) (f : ℝ → ℝ) (s : ℝ) :
    (l.map (fun x => f x / s)).sum = (l.map f).sum / s := by
  induction l with
  | nil => simp
  | cons x xs ih =>
    simp only [List.map_cons, List.sum_cons, ih]
    rw [div_add_div_same]

theorem sampleVar_map_affine (l : List ℝ) (a s : ℝ) (hl : l ≠ []) :
    sampleVar (l.map (fun x => (x - a) / s)) = sampleVar l / s ^ 2 := by
  unfold sampleVar
  rw [List.length_map, lmean_map_affine l a s hl, List.map_map]
  have hfun : ∀ x ∈ l, ((fun y => (y - (lmean l - a) / s) ^ 2) ∘ fun x => (x - a) / s) x
      = (fun y => (y - lmean l) ^ 2 / s ^ 2) x := by
    intro x hx
    simp only [Function.comp]
    rw [div_sub_div_same, ← div_pow]
    congr 2
    ring
  rw [List.map_congr_left hfun, sum_map_div]
  rw [div_right_comm]

theorem sampleVar_nonneg (l : List ℝ) (hl : 2 ≤ l.length) : 0 ≤ sampleVar l := by
  unfold sampleVar
  apply div_nonneg
  · apply List.sum_nonneg
    intro x hx
    obtain ⟨y, hy, rfl⟩ := List.mem_map.mp hx
    positivity
  · have h2 : (2:ℝ) ≤ (l.length : ℝ) := by exact_mod_cast hl
    linarith

theorem sampleStd_map_centered (l : List ℝ) (s : ℝ) (hs : 0 < s) (hl : 2 ≤ l.length) :
    sampleStd (l.map (fun x => (x - lmean l) / s)) = sampleStd l / s := by
  have hne : l ≠ [] := by
    intro h
    rw [h] at hl
    exact absurd hl (by decide)
  unfold sampleStd
  rw [sampleVar_map_affine l (lmean l) s hne]
  rw [Real.sqrt_div (sampleVar_nonneg l hl)]
  rw [Real.sqrt_sq hs.le]

end EquityModel

namespace EquityModel

/-! ### Claim C1: cross-sectional standardization -/

theorem stdCell_some_form (rows : List SigRow) (d : ℕ) (get : SigRow → Option ℝ) (m s : ℝ)
    (hm : groupMean rows d get = some m) (hs : groupStd rows d get = some s) (x : Option ℝ) :
    stdCell rows d get x = x.map (fun xv => (xv - m) / (s + 1 / 1000000000000)) := by
  unfold stdCell
  rw [hm, hs]
  cases x with
  | none => rfl
  | some xv => rfl

theorem filterMap_id_map_option (fa : ℝ → ℝ) :
    ∀ l : List (Option ℝ), (l.map (Option.map fa)).filterMap id = (l.filterMap id).map fa := by
  intro l
  induction l with
  | nil => rfl
  | cons x xs ih =>
    cases x with
    | none => simpa using ih
    | some v => simpa using ih

theorem colVals_map_option (rows : List SigRow) (d : ℕ) (get : SigRow → Option ℝ)
    (fa : ℝ → ℝ) :
    colVals rows d (fun r => (get r).map fa) = (colVals rows d get).map fa := by
  unfold colVals
  have : (rows.filter (fun r => r.dt == d)).map (fun r => (get r).map fa)
      = ((rows.filter (fun r => r.dt == d)).map get).map (Option.map fa) := by
    rw [List.map_map]
    rfl
  rw [this, filterMap_id_map_option]

/-- Claim C1 (corrected): on every date group with at least two rows, any
directly standardized column comes out as the map
`x ↦ (x - mean) / (std + 1e-12)` of its raw values; the standardized values
have cross-sectional mean exactly 0 and cross-sectional std
`std / (std + 1e-12)` — within `1e-12 / std` of 1 whenever the raw dispersion
`std` is positive, but 0 (not 1) when the raw column is cross-sectionally
constant, as `macro_sens` and `credit_sens` are by construction. -/
theorem c1_standardization (rows : List SigRow) (d : ℕ) (c : Fcol)
    (hnv : ¬ c = Fcol.value_z) (hnq : ¬ c = Fcol.quality_z)
    (hall : ∀ r ∈ rows, (r.f c).isSome = true)
    (h2 : 2 ≤ (rows.filter (fun r => r.dt == d)).length) :
    colVals (stdizeRows rows) d (fun r => r.f c)
      = (colVals rows d (fun r => r.f c)).map
          (fun x => (x - lmean (colVals rows d (fun r => r.f c)))
            / (sampleStd (colVals rows d (fun r => r.f c)) + 1 / 1000000000000)) ∧
    lmean (colVals (stdizeRows rows) d (fun r => r.f c)) = 0 ∧
    sampleStd (colVals (stdizeRows rows) d (fun r => r.f c))
      = sampleStd (colVals rows d (fun r => r.f c))
        / (sampleStd (colVals rows d (fun r => r.f c)) + 1 / 1000000000000) ∧
    (0 < sampleStd (colVals rows d (fun r => r.f c)) →
      |sampleStd (colVals (stdizeRows rows) d (fun r => r.f c)) - 1|
        ≤ (1 / 1000000000000) / sampleStd (colVals rows d (fun r => r.f c))) := by
  have hvlen : 2 ≤ (colVals rows d (fun r => r.f c)).length := by
    rw [colVals_length_of_all_some rows d _ hall]
    exact h2
  have hvne : colVals rows d (fun r => r.f c) ≠ [] := by
    intro h
    rw [h] at hvlen
    exact absurd hvlen (by decide)
  have hsig0 : 0 ≤ sampleStd (colVals rows d (fun r => r.f c)) := Real.sqrt_nonneg _
  have heps : (0:ℝ) < 1 / 1000000000000 := by norm_num
  have hs : 0 < sampleStd (colVals rows d (fun r => r.f c)) + 1 / 1000000000000 := by
    linarith
  have hmean : groupMean rows d (fun r => r.f c)
      = some (lmean (colVals rows d (fun r => r.f c))) := by
    unfold groupMean
    rw [if_neg]
    intro hemp
    rw [List.isEmpty_iff] at hemp
    exact hvne hemp
  have hstd : groupStd rows d (fun r => r.f c)
      = some (sampleStd (colVals rows d (fun r => r.f c))) := by
    unfold groupStd
    rw [if_pos hvlen]
  have h1 : colVals (stdizeRows rows) d (fun r => r.f c)
      = (colVals rows d (fun r => r.f c)).map
          (fun x => (x - lmean (colVals rows d (fun r => r.f c)))
            / (sampleStd (colVals rows d (fun r => r.f c)) + 1 / 1000000000000)) := by
    unfold stdizeRows
    rw [colVals_map_get (szRow rows) (szRow_dt rows)]
    rw [colVals_congr rows d _
      (fun r => (r.f c).map
        (fun xv => (xv - lmean (colVals rows d (fun r2 => r2.f c)))
          / (sampleStd (colVals rows d (fun r2 => r2.f c)) + 1 / 1000000000000)))]
    · exact colVals_map_option rows d (fun r => r.f c) _
    · intro r hr hrd
      rw [szRow_f_direct rows r c hnv hnq, hrd]
      exact stdCell_some_form rows d _ _ _ hmean hstd (r.f c)
  refine ⟨h1, ?_, ?_, ?_⟩
  · rw [h1]
    exact lmean_map_centered _ _ hvne
  · rw [h1]
    exact sampleStd_map_centered _ _ hs hvlen
  · intro hpos
    rw [h1, sampleStd_map_centered _ _ hs hvlen]
    have hkey : sampleStd (colVals rows d (fun r => r.f c))
          / (sampleStd (colVals rows d (fun r => r.f c)) + 1 / 1000000000000) - 1
        = -((1 / 1000000000000)
          / (sampleStd (colVals rows d (fun r => r.f c)) + 1 / 1000000000000)) := by
      field_simp
    rw [hkey, abs_neg, abs_of_nonneg (by positivity)]
    apply div_le_div_of_nonneg_left heps.le hpos
    linarith

end EquityModel

namespace EquityModel

/-- Witness row A: beta 1, all other cells 0 on date 0. -/
def c1wA : SigRow :=
  { ticker := "A", dt := 0, ret := some 0,
    f := fun c => if c = Fcol.beta_mkt then some 1 else some 0, vraw := none, qraw := none }

/-- Witness row B: beta 3, all other cells 0 on date 0. -/
def c1wB : SigRow :=
  { ticker := "B", dt := 0, ret := some 0,
    f := fun c => if c = Fcol.beta_mkt then some 3 else some 0, vraw := none, qraw := none }

/-- Witness for `c1_standardization` at a concrete two-row date group. -/
theorem c1_standardization_witness :
    colVals (stdizeRows [c1wA, c1wB]) 0 (fun r => r.f Fcol.beta_mkt)
      = (colVals [c1wA, c1wB] 0 (fun r => r.f Fcol.beta_mkt)).map
          (fun x => (x - lmean (colVals [c1wA, c1wB] 0 (fun r => r.f Fcol.beta_mkt)))
            / (sampleStd (colVals [c1wA, c1wB] 0 (fun r => r.f Fcol.beta_mkt))
              + 1 / 1000000000000)) ∧
    lmean (colVals (stdizeRows [c1wA, c1wB]) 0 (fun r => r.f Fcol.beta_mkt)) = 0 ∧
    sampleStd (colVals (stdizeRows [c1wA, c1wB]) 0 (fun r => r.f Fcol.beta_mkt))
      = sampleStd (colVals [c1wA, c1wB] 0 (fun r => r.f Fcol.beta_mkt))
        / (sampleStd (colVals [c1wA, c1wB] 0 (fun r => r.f Fcol.beta_mkt))
          + 1 / 1000000000000) := by
  have h := c1_standardization [c1wA, c1wB] 0 Fcol.beta_mkt
    (by decide) (by decide) (by decide) (by decide)
  exact ⟨h.1, h.2.1, h.2.2.1⟩

end EquityModel

namespace EquityModel

/-- The time-series z-score of the constant macro slope is 0 on date 252
(the series mean is 1 and the numerator vanishes). -/
theorem macroSym_slope_z : macroZAt macroSym macroSym.curve_slope 252 = some 0 := by
  have hfind : ((List.range 254).find? (fun j => macroSym.dt j == 252)) = some 252 := by
    decide
  show (((List.range macroSym.m).find? (fun j => macroSym.dt j == 252)).bind
    (fun j => macroZ macroSym.curve_slope macroSym.m j)) = some 0
  rw [show macroSym.m = 254 from rfl, hfind]
  show macroZ macroSym.curve_slope 254 252 = some 0
  unfold macroZ
  rw [if_pos (by norm_num)]
  have hsv : seriesVals macroSym.curve_slope 254 = List.replicate 254 1 := by
    show (List.range 254).map (fun _ => (1:ℝ)) = List.replicate 254 1
    have := List.map_const (List.range 254) (1:ℝ)
    simpa using this
  have hlm : lmean (seriesVals macroSym.curve_slope 254) = 1 := by
    rw [hsv]
    unfold lmean
    rw [List.sum_replicate, List.length_replicate]
    norm_num
  rw [hlm]
  have hsl : macroSym.curve_slope 252 = 1 := rfl
  rw [hsl]
  norm_num

end EquityModel

namespace EquityModel

/-- Mean of two zeros. -/
theorem lmean_zero_pair : lmean [(0:ℝ), 0] = 0 := by
  unfold lmean
  norm_num

/-- Sample standard deviation of two zeros. -/
theorem sampleStd_zero_pair : sampleStd [(0:ℝ), 0] = 0 := by
  unfold sampleStd sampleVar
  rw [lmean_zero_pair]
  norm_num

/-- Claim C1 counterexample: on the concrete two-ticker panel, date 252 has
two tickers, yet the standardized `macro_sens` column is `[0, 0]` — its
cross-sectional standard deviation is 0, not approximately 1 (it misses 1 by
a full 1, far beyond any epsilon tolerance).  The raw `macro_sens` column is
identical across tickers sharing a date by construction (it is merged from
the macro panel by date), so its cross-sectional dispersion is always 0 and
the epsilon-guarded quotient collapses the column to zeros. -/
theorem c1_counterexample :
    ((build_signals [spySym, aaaSym] macroSym none none "SPY").filter
        (fun r => r.dt == 252)).length = 2 ∧
    colVals (build_signals [spySym, aaaSym] macroSym none none "SPY") 252
        (fun r => r.f Fcol.macro_sens) = [0, 0] ∧
    sampleStd (colVals (build_signals [spySym, aaaSym] macroSym none none "SPY") 252
        (fun r => r.f Fcol.macro_sens)) = 0 ∧
    ¬ |sampleStd (colVals (build_signals [spySym, aaaSym] macroSym none none "SPY") 252
        (fun r => r.f Fcol.macro_sens)) - 1| ≤ 1 / 2 := by
  have hL0 : dropRows [spySym, aaaSym] macroSym none none "SPY"
      = [mkSigRow [spySym, aaaSym] macroSym none none "SPY" spySym 252,
         mkSigRow [spySym, aaaSym] macroSym none none "SPY" aaaSym 252] := rfl
  have hcS : (mkSigRow [spySym, aaaSym] macroSym none none "SPY" spySym 252).f
      Fcol.macro_sens = some 0 := macroSym_slope_z
  have hcA : (mkSigRow [spySym, aaaSym] macroSym none none "SPY" aaaSym 252).f
      Fcol.macro_sens = some 0 := macroSym_slope_z
  have hdS : (mkSigRow [spySym, aaaSym] macroSym none none "SPY" spySym 252).dt = 252 := rfl
  have hdA : (mkSigRow [spySym, aaaSym] macroSym none none "SPY" aaaSym 252).dt = 252 := rfl
  have hcv0 : colVals
      [mkSigRow [spySym, aaaSym] macroSym none none "SPY" spySym 252,
       mkSigRow [spySym, aaaSym] macroSym none none "SPY" aaaSym 252] 252
      (fun r2 => r2.f Fcol.macro_sens) = [0, 0] := by
    unfold colVals
    simp [hdS, hdA, hcS, hcA]
  have hmu : groupMean
      [mkSigRow [spySym, aaaSym] macroSym none none "SPY" spySym 252,
       mkSigRow [spySym, aaaSym] macroSym none none "SPY" aaaSym 252] 252
      (fun r2 => r2.f Fcol.macro_sens) = some 0 := by
    unfold groupMean
    rw [hcv0, if_neg (by simp), lmean_zero_pair]
  have hsd : groupStd
      [mkSigRow [spySym, aaaSym] macroSym none none "SPY" spySym 252,
       mkSigRow [spySym, aaaSym] macroSym none none "SPY" aaaSym 252] 252
      (fun r2 => r2.f Fcol.macro_sens) = some 0 := by
    unfold groupStd
    rw [hcv0, if_pos (by decide), sampleStd_zero_pair]
  have hone : stdCell
      [mkSigRow [spySym, aaaSym] macroSym none none "SPY" spySym 252,
       mkSigRow [spySym, aaaSym] macroSym none none "SPY" aaaSym 252] 252
      (fun r2 => r2.f Fcol.macro_sens) (some 0) = some 0 := by
    rw [stdCell_some_form _ _ _ 0 0 hmu hsd]
    norm_num
  have hvals : colVals (build_signals [spySym, aaaSym] macroSym none none "SPY") 252
      (fun r => r.f Fcol.macro_sens) = [0, 0] := by
    unfold build_signals
    rw [hL0]
    unfold qualityZRows
    rw [colVals_map_get _ (qzRow_dt _)]
    unfold valueZRows
    rw [colVals_map_get _ (vzRow_dt _)]
    unfold stdizeRows
    rw [colVals_map_get _ (szRow_dt _)]
    rw [colVals_congr _ 252 _
      (fun r => stdCell
        [mkSigRow [spySym, aaaSym] macroSym none none "SPY" spySym 252,
         mkSigRow [spySym, aaaSym] macroSym none none "SPY" aaaSym 252] 252
        (fun r2 => r2.f Fcol.macro_sens) (r.f Fcol.macro_sens))]
    · unfold colVals
      simp only [List.filter_cons, hdS, hdA]
      norm_num [hcS, hcA, hone]
      rfl
    · intro r hr hrd
      rw [qzRow_f_other _ _ _ (by decide), vzRow_f_other _ _ _ (by decide),
        szRow_f_direct _ _ _ (by decide) (by decide), hrd]
  refine ⟨by decide, hvals, ?_, ?_⟩
  · rw [hvals, sampleStd_zero_pair]
  · rw [hvals, sampleStd_zero_pair]
    norm_num

end EquityModel
